import Mathlib

/-!
Verification of the conman daemon core (`server-obj.c`, `server-conf.c`)
against its natural-language specification.

The C sources are shallowly embedded: machine integers become `Nat`/`Int`
(the code's own asserts keep all buffer indices inside `[0, MAX_BUF_SIZE)`,
so the arithmetic never overflows), pointers into the object graph become
indices into a store (`List Obj`), the OS write(2)/open(2) calls become
explicit result oracles, and `err_msg` (which terminates the process)
becomes an explicit `fatal`/`none` outcome.  `MAX_BUF_SIZE` is a compile
time macro whose value is not in the sources, so it is kept as an abstract
parameter `B` throughout.
-/

namespace Conman

/-- Object variants (`enum obj_type` in server.h, used by server-obj.c). -/
inductive ObjType
  | CONSOLE
  | LOGFILE
  | SOCKET
deriving DecidableEq, Repr

/-- The uniform object (`obj_t`).  `buf` is the circular buffer of length
`MAX_BUF_SIZE`; `bufIn`/`bufOut` are the index forms of `bufInPtr`/`bufOutPtr`
(offsets from `buf`).  `writer`/`readers` hold store indices of other
objects (`none` models a NULL writer).  `fd < 0` models a closed
descriptor.  `alive` tracks whether `destroy_obj` has freed the object. -/
structure Obj where
  name : List Nat
  otype : ObjType
  fd : Int
  gotEOF : Bool
  buf : List Nat
  bufIn : Nat
  bufOut : Nat
  writer : Option Nat
  readers : List Nat
  alive : Bool
deriving DecidableEq, Repr

instance : Inhabited Obj :=
  ⟨{ name := [], otype := ObjType.SOCKET, fd := -1, gotEOF := false,
     buf := [], bufIn := 0, bufOut := 0, writer := none, readers := [],
     alive := false }⟩

/-- The object store: objects addressed by index (pointer identity). -/
abbrev Store : Type := List Obj

/-- Dereference an object pointer (an out-of-range index yields junk;
all claims use valid indices). -/
def getObj (st : Store) (i : Nat) : Obj := List.getD st i default

/-- Write back through an object pointer. -/
def setObj (st : Store) (i : Nat) (o : Obj) : Store := List.set st i o

/-- `memcpy(buf + pos, src, |src|)` on a list-modelled byte array. -/
def memcpy (buf : List Nat) (pos : Nat) (src : List Nat) : List Nat :=
  match src with
  | [] => buf
  | a :: rest => memcpy (buf.set pos a) (pos + 1) rest

/-- The `avail` computation of `write_obj_data` (server-obj.c:476-482):
the number of bytes available before data is overwritten. -/
def avail_before_overwrite (B : Nat) (obj : Obj) : Nat :=
  if obj.bufOut = obj.bufIn then B - 1
  else if obj.bufIn < obj.bufOut then obj.bufOut - obj.bufIn
  else (B - obj.bufIn) + obj.bufOut

/-- The locked body of `write_obj_data` (server-obj.c:470-513) after the
length clamp, on an already-nonnegative length.  Returns the new object
and `some k` when the overwrite branch fires its `log_msg` reporting `k`
overwritten bytes. -/
def write_obj_data_core (B : Nat) (obj : Obj) (s : List Nat) (len : Nat) :
    Obj × Option Nat :=
  let avail : Nat := avail_before_overwrite B obj
  -- first chunk: up to the end of the buffer
  let m : Nat := min len (B - obj.bufIn)
  let s0 := s.take len
  let buf1 := if 0 < m then memcpy obj.buf obj.bufIn (s0.take m) else obj.buf
  let in1 : Nat :=
    if 0 < m then (if obj.bufIn + m = B then 0 else obj.bufIn + m) else obj.bufIn
  -- second chunk: from the beginning of the buffer
  let n : Nat := len - m
  let buf2 := if 0 < n then memcpy buf1 in1 (s0.drop m) else buf1
  let in2 : Nat := if 0 < n then in1 + n else in1
  -- if (len > avail) { log_msg(...); bufOutPtr = bufInPtr + 1; wrap }
  let out2 : Nat :=
    if avail < len then (if in2 + 1 = B then 0 else in2 + 1) else obj.bufOut
  let logged : Option Nat := if avail < len then some (len - avail) else none
  ({ obj with buf := buf2, bufIn := in2, bufOut := out2 }, logged)

/-- `write_obj_data(obj, src, len)` (server-obj.c:444-524).  `src = none`
models a NULL pointer.  Returns the new object, the int return value, and
the overwrite report of `write_obj_data_core`.  The pthread lock/unlock
calls guard the whole body and are not represented. -/
def write_obj_data (B : Nat) (obj : Obj) (src : Option (List Nat)) (len0 : Int) :
    Obj × Int × Option Nat :=
  match src with
  | none => (obj, 0, none)
  | some s =>
    if len0 ≤ 0 then (obj, 0, none)
    else
      -- if (len >= MAX_BUF_SIZE) len = MAX_BUF_SIZE - 1;
      let len : Nat := if (B : Int) ≤ len0 then B - 1 else len0.toNat
      let r := write_obj_data_core B obj s len
      (r.1, (len : Int), r.2)

/-- Number of buffered bytes (spec-level; the code treats `in == out` as
empty, so the retrievable length is the circular distance from `out` to
`in`).  Written without `%` to match the code's compare-and-wrap style. -/
def occupancy (B : Nat) (obj : Obj) : Nat :=
  if obj.bufOut ≤ obj.bufIn then obj.bufIn - obj.bufOut
  else (B - obj.bufOut) + obj.bufIn

/-- Circular position at distance `k` from index `start` (for `start < B`,
`k < B`). -/
def bufPos (B start k : Nat) : Nat :=
  if start + k < B then start + k else start + k - B

/-- Circular distance of position `j` from index `inn` (inverse of
`bufPos` for `inn, j < B`). -/
def wdist (B inn j : Nat) : Nat :=
  if inn ≤ j then j - inn else (B - inn) + j

/-- The retrievable content of the circular buffer, read in FIFO order
from `out` toward `in` (spec-level reader view, no concurrent consumer). -/
def bufContents (B : Nat) (obj : Obj) : List Nat :=
  (List.range (occupancy B obj)).map (fun k => obj.buf.getD (bufPos B obj.bufOut k) 0)

/-- Outcome of one `write(2)` call inside `write_to_obj`: either a byte
count `n ≥ 0`, or a negative return with the given `errno`. -/
inductive WriteResult
  | wrote (n : Nat)
  | eintr
  | epipe
  | eagain
  | ewouldblock
  | err
deriving DecidableEq, Repr

/-- Outcome of `write_to_obj`: `fatal` models `err_msg` terminating the
process, `noFuel` models running out of oracle results (never reached by
the claims, which supply enough results), and `ok o closed` gives the
object after the buffer phase together with whether `close_obj` was
invoked at the end. -/
inductive WTOut
  | fatal
  | noFuel
  | ok (o : Obj) (closed : Bool)
deriving DecidableEq, Repr

/-- The `again:` retry loop around `write(2)` (server-obj.c:340-362),
consuming one oracle result per syscall; EINTR retries. -/
def write_syscall_loop (B : Nat) (obj : Obj) : List WriteResult → Option (Option Obj)
  | [] => none
  | r :: rs =>
    match r with
    | WriteResult.eintr => write_syscall_loop B obj rs
    | WriteResult.epipe =>
        some (some { obj with gotEOF := true, bufIn := 0, bufOut := 0 })
    | WriteResult.eagain => some (some obj)
    | WriteResult.ewouldblock => some (some obj)
    | WriteResult.err => some none      -- err_msg: fatal
    | WriteResult.wrote n =>
        if 0 < n then
          let o := obj.bufOut + n
          some (some { obj with bufOut := if o = B then 0 else o })
        else some (some obj)

/-- The `avail` computation of `write_to_obj` (server-obj.c:334-337): the
length of the contiguous run from `out` up to `in` (when `in >= out`) or
up to the buffer end (when `in < out`). -/
def avail_to_write (B : Nat) (obj : Obj) : Nat :=
  if obj.bufOut ≤ obj.bufIn then obj.bufIn - obj.bufOut
  else B - obj.bufOut

/-- `write_to_obj(obj)` (server-obj.c:308-381): drains the contiguous run
from `out` up to `in` (or to the buffer end) with a single write, then
invokes `close_obj` when `gotEOF` is set and the buffer is empty. -/
def write_to_obj (B : Nat) (obj : Obj) (results : List WriteResult) : WTOut :=
  if obj.fd < 0 then WTOut.ok obj false     -- early return, close check skipped
  else
    let avail : Nat := avail_to_write B obj
    let phase : Option (Option Obj) :=
      if 0 < avail then write_syscall_loop B obj results else some (some obj)
    match phase with
    | none => WTOut.noFuel
    | some none => WTOut.fatal
    | some (some o) =>
        WTOut.ok o (o.gotEOF && decide (o.bufIn = o.bufOut))

/-- `destroy_obj(obj)` (server-obj.c:127-168).  Besides the freed object
it reports whether the entry assertion `bufInPtr == bufOutPtr` holds and
whether the `fd >= 0` closing branch was taken. -/
def destroy_obj (obj : Obj) : Obj × Bool × Bool :=
  ({ obj with fd := if 0 ≤ obj.fd then -1 else obj.fd, alive := false },
   decide (obj.bufIn = obj.bufOut), decide (0 ≤ obj.fd))

/-- The teardown step of `close_obj` (server-obj.c:237-252).  The second
component is `some (assertOk, fdBranch)` when `destroy_obj` was invoked,
carrying `destroy_obj`'s two reports. -/
def close_teardown (obj : Obj) : Obj × Option (Bool × Bool) :=
  if obj.bufIn ≠ obj.bufOut then
    ({ obj with gotEOF := true }, none)
  else
    let o1 := { obj with gotEOF := false }
    let o2 := if 0 ≤ o1.fd then { o1 with fd := -1 } else o1
    if o2.otype = ObjType.SOCKET then
      let d := destroy_obj o2
      (d.1, some (d.2.1, d.2.2))
    else (o2, none)

/-- Value of the local `reader` pointer in `close_obj`: NULL, a pointer to
object `i`, or the uninitialized stack value.  The C code leaves `reader`
uninitialized when `obj->writer == NULL`; the model fixes that garbage to
a non-NULL value matching no object (the benign concrete behavior). -/
inductive Ptr
  | null
  | mk (i : Nat)
  | garbage
deriving DecidableEq, Repr

/-- `list_delete` during iteration: remove the first occurrence. -/
def removeFirst : List Nat → Nat → List Nat
  | [], _ => []
  | x :: xs, v => if x = v then xs else x :: removeFirst xs v

/-- The reader-drain loop of `close_obj` (server-obj.c:229-235).  The C
condition is `reader == list_pop(obj->readers)` (a comparison, not an
assignment): every evaluation pops one element; the body runs only when
the popped pointer equals the stale `reader` value.  A NULL stale pointer
meeting an empty list makes the body dereference NULL: modelled as
`none` (crash). -/
def drainLoop (closef : Store → Nat → Option Store) :
    Nat → Store → Nat → Ptr → Option Store
  | 0, _, _, _ => none
  | fuel + 1, st, i, stale =>
    let obj := getObj st i
    match obj.readers with
    | [] =>
        if stale = Ptr.null then none       -- body dereferences NULL
        else some st
    | r :: rest =>
        let st1 := setObj st i { obj with readers := rest }
        if stale = Ptr.mk r then
          let robj := getObj st1 r
          if robj.writer = some i then
            let st2 := setObj st1 r { robj with writer := none }
            match (if (getObj st2 r).readers = [] then closef st2 r else some st2) with
            | none => none
            | some st3 => drainLoop closef fuel st3 i stale
          else drainLoop closef fuel st1 i stale
        else some st1                       -- popped element is discarded

/-- `close_obj(obj)` (server-obj.c:202-253) with explicit recursion fuel
(`none` on exhaustion; the code's recursion depth is at most two, so fuel
3 always suffices — see `close_obj`).  Phase 1 unlinks from the writer,
phase 2 is the buggy reader-drain loop, phase 3 is the teardown. -/
def close_obj_fuel : Nat → Store → Nat → Option Store
  | 0, _, _ => none
  | fuel + 1, st, i =>
    let obj := getObj st i
    let p1 : Option (Store × Ptr) :=
      match obj.writer with
      | none => some (st, Ptr.garbage)      -- `reader` stays uninitialized
      | some w =>
        let wobj := getObj st w
        if i ∈ wobj.readers then
          let st1 := setObj st w { wobj with readers := removeFirst wobj.readers i }
          let st2opt :=
            if (getObj st1 w).writer = none ∧ (getObj st1 w).readers = [] then
              close_obj_fuel fuel st1 w
            else some st1
          match st2opt with
          | none => none
          | some st2 =>
            let o2 := getObj st2 i
            some (setObj st2 i { o2 with writer := none }, Ptr.mk i)
        else some (st, Ptr.null)            -- loop ends, `reader` is NULL
    match p1 with
    | none => none
    | some (st2, stale) =>
      match drainLoop (close_obj_fuel fuel) ((getObj st2 i).readers.length + 1)
          st2 i stale with
      | none => none
      | some st3 =>
        let o := getObj st3 i
        some (setObj st3 i (close_teardown o).1)

/-- `close_obj` with enough fuel for the code's bounded recursion. -/
def close_obj (st : Store) (i : Nat) : Option Store := close_obj_fuel 3 st i

/-- The steal notice built by `create_obj_link` (server-obj.c:283-284):
the bytes of `"\nConsole '<dst>' stolen by <<src>> at <now>.\n"`.
Byte constants spelled numerically; 10 = newline, 39 = single quote,
46 = full stop, 60 = less-than, 62 = greater-than. -/
def stealNotice (dstName srcName now : List Nat) : List Nat :=
  [10, 67, 111, 110, 115, 111, 108, 101, 32, 39]            -- "\nConsole '"
    ++ dstName
    ++ [39, 32, 115, 116, 111, 108, 101, 110, 32, 98, 121, 32, 60]
                                                            -- "' stolen by <"
    ++ srcName
    ++ [62, 32, 97, 116, 32]                                -- "> at "
    ++ now
    ++ [46, 10]                                             -- ".\n"

/-- The logfile session header built by `open_obj` (server-obj.c:191-192):
the bytes of `"* Console [<writer>] log started on <now>.\n\n"`. -/
def logHeader (writerName now : List Nat) : List Nat :=
  [42, 32, 67, 111, 110, 115, 111, 108, 101, 32, 91]        -- "* Console ["
    ++ writerName
    ++ [93, 32, 108, 111, 103, 32, 115, 116, 97, 114, 116,
        101, 100, 32, 111, 110, 32]                         -- "] log started on "
    ++ now
    ++ [46, 10, 10]                                         -- ".\n\n"

/-- `open_obj(obj)` (server-obj.c:171-199).  `oracleFd` is the result of
the logfile `open(2)` call; `now` the timestamp string.  Consoles are a
no-op (NOT_IMPLEMENTED_YET); sockets fall through to `return 0`. -/
def open_obj (B : Nat) (st : Store) (i : Nat) (oracleFd : Int) (now : List Nat) :
    Store × Int :=
  let obj := getObj st i
  if 0 ≤ obj.fd then (st, 0)                -- obj already open
  else if obj.otype = ObjType.CONSOLE then (st, 0)
  else if obj.otype = ObjType.LOGFILE then
    if oracleFd < 0 then (st, -1)
    else
      let obj1 := { obj with fd := oracleFd }
      let wname := match obj1.writer with
        | some w => (getObj st w).name
        | none => []                        -- C would dereference NULL here
      let hdr := logHeader wname now
      let r := write_obj_data B obj1 (some hdr) (hdr.length : Int)
      (setObj st i r.1, 0)
  else (st, 0)

/-- Observable actions of `create_obj_link`, in program order. -/
inductive LinkEvent
  | wroteNotice (w : Nat) (data : List Nat)
  | closedWriter (w : Nat)
  | openedObj (i : Nat)
deriving DecidableEq, Repr

/-- `create_obj_link(src, dst)` (server-obj.c:271-305).  `now` is the
timestamp string; `srcFd`/`dstFd` are the `open(2)` oracles for the two
possible `open_obj` calls.  Returns `none` when the embedded `close_obj`
crashes (NULL dereference in the C).  The event list records the steal
notice write, the `close_obj` invocation, and each `open_obj` call. -/
def create_obj_link (B : Nat) (st : Store) (src dst : Nat) (now : List Nat)
    (srcFd dstFd : Int) : Option (Store × List LinkEvent) :=
  let d := getObj st dst
  let step1 : Option (Store × List LinkEvent) :=
    match d.writer with
    | some w =>
      -- the dst console is already in R/W use by another client: steal it
      let notice := stealNotice (getObj st dst).name (getObj st src).name now
      let wr := write_obj_data B (getObj st w) (some notice) (notice.length : Int)
      let st1 := setObj st w wr.1
      match close_obj st1 w with
      | none => none
      | some st2 =>
          some (st2, [LinkEvent.wroteNotice w notice, LinkEvent.closedWriter w])
    | none => some (st, [])
  match step1 with
  | none => none
  | some (st1, evs) =>
    -- create obj link where src writes to dst
    let d1 := getObj st1 dst
    let st2 := setObj st1 dst { d1 with writer := some src }
    let s2 := getObj st2 src
    let st3 := setObj st2 src { s2 with readers := s2.readers ++ [dst] }
    -- ensure both objs are active
    let r4 :=
      if (getObj st3 src).fd < 0 then
        ((open_obj B st3 src srcFd now).1, [LinkEvent.openedObj src])
      else (st3, ([] : List LinkEvent))
    let r5 :=
      if (getObj r4.1 dst).fd < 0 then
        ((open_obj B r4.1 dst dstFd now).1, [LinkEvent.openedObj dst])
      else (r4.1, ([] : List LinkEvent))
    some (r5.1, evs ++ r4.2 ++ r5.2)

/-! ## Configuration parser (server-conf.c)

`lex.c` is not under `src/`.  Modelled from the spec (§4.1): the lexer is
represented by the token stream it produces; `lex_next`, `lex_prev`,
`lex_text` and `lex_line` are the stream interface.  A token carries its
kind, the raw text (`lex_text`) as bytes, and the line number
(`lex_line`). -/

/-- The keyword table `server_conf_strs` (server-conf.c:46-62). -/
inductive Kw
  | BPS | CONSOLE | DEV | KEEPALIVE | LOG | LOGFILE | LOOPBACK
  | NAME | OFF | ON | PIDFILE | PORT | SERVER | TIMESTAMP
deriving DecidableEq, Repr

/-- Token kinds: keyword, string, integer, single-character punctuation
(61 is `=`), end-of-line, end-of-file, unmatched-quote error. -/
inductive TokKind
  | kw (k : Kw)
  | lstr
  | lint
  | punct (c : Nat)
  | eol
  | eof
  | lerr
deriving DecidableEq, Repr

/-- A lexer token: kind, raw text, line number. -/
structure Tok where
  kind : TokKind
  text : List Nat
  line : Nat
deriving DecidableEq, Repr

/-- Modelled from the spec: lexer state as the not-yet-consumed token
stream plus the last returned token (for `lex_prev`/`lex_text`/
`lex_line`). -/
structure LexState where
  rest : List Tok
  prev : TokKind
  cur : Tok
deriving DecidableEq, Repr

/-- Modelled from the spec: `lex_next` pops the next token; on an
exhausted stream it keeps returning end-of-file. -/
def lex_next (lx : LexState) : Tok × LexState :=
  match lx.rest with
  | [] =>
      let t : Tok := { kind := TokKind.eof, text := [], line := lx.cur.line }
      (t, { lx with prev := TokKind.eof, cur := t })
  | t :: ts => (t, { rest := ts, prev := t.kind, cur := t })

/-- Modelled from the spec: `lex_prev` is the kind of the last token. -/
def lex_prev (lx : LexState) : TokKind := lx.prev

/-- Modelled from the spec: `lex_text` is the raw text of the current
token. -/
def lex_text (lx : LexState) : List Nat := lx.cur.text

/-- Modelled from the spec: `lex_line` is the current line number. -/
def lex_line (lx : LexState) : Nat := lx.cur.line

/-- Modelled from the spec: `lex_create` starts before the first token. -/
def lex_create (toks : List Tok) : LexState :=
  { rest := toks, prev := TokKind.eol,
    cur := { kind := TokKind.eol, text := [], line := 0 } }

/-- Accumulate decimal digits (bytes 48-57). -/
def atoiDigits : List Nat → Nat → Nat
  | [], acc => acc
  | c :: t, acc =>
      if 48 ≤ c ∧ c ≤ 57 then atoiDigits t (acc * 10 + (c - 48)) else acc

/-- Modelled from the spec: libc `atoi` — skip leading whitespace, accept
an optional sign (43 `+` / 45 `-`), convert leading digits. -/
def atoiM (s : List Nat) : Int :=
  let s1 := s.dropWhile (fun c => c = 32 || (9 ≤ c && c ≤ 13))
  match s1 with
  | 43 :: t => (atoiDigits t 0 : Int)
  | 45 :: t => -((atoiDigits t 0 : Int))
  | t => (atoiDigits t 0 : Int)

/-- The parts of `server_conf_t` the parser claims touch. -/
structure ServerConf where
  port : Int
  enableKeepAlive : Bool
  enableLoopBack : Bool
deriving DecidableEq, Repr

/-- The per-directive diagnostic messages (`err` buffers filled by
`snprintf`), represented structurally instead of as format strings. -/
inductive ErrKind
  | expectedEq (k : Kw)             -- expected = after KEY keyword
  | expectedString (k : Kw)         -- expected STRING for KEY value
  | expectedInt (k : Kw)            -- expected INTEGER for KEY value
  | expectedOnOff (k : Kw)          -- expected ON or OFF for KEY value
  | invalidValue (k : Kw) (n : Int) -- invalid KEY value n
  | notImplemented (k : Kw)         -- KEY keyword not yet implemented
  | unmatchedQuote
  | unrecognized (text : List Nat)  -- unrecognized token
  | incomplete (d : TokKind)        -- incomplete DIRECTIVE directive
deriving DecidableEq, Repr

/-- One emitted diagnostic line `ERROR: <file>:<line>: <message>.`
(`file` is the fixed configuration filename).  `toStderr` records the
destination stream: `fprintf(stderr, ...)` sites set it, the `printf`
sites in `process_server_conf_file`'s loop clear it. -/
structure ErrLine where
  line : Nat
  msg : ErrKind
  toStderr : Bool
deriving DecidableEq, Repr

/-- Observable configuration effects (used to state port precedence and
console creation without modelling `conf->objs`). -/
inductive PEvent
  | setPort (n : Int)
  | consoleCreated (name dev log : List Nat) (bps : Int)
deriving DecidableEq, Repr

/-- Compiled-in default baud rate (macro not under `src/`). -/
def DEFAULT_CONSOLE_BAUD : Int := 9600

/-- State threaded through a directive parser's option loop. -/
structure SDState where
  lx : LexState
  conf : ServerConf
  err : Option ErrKind
  evs : List PEvent
deriving Repr

/-- The option loop of `parse_server_directive` (server-conf.c:419-491).
Each iteration consumes at least one token, so fuel `rest.length + 1`
never runs out; on exhaustion the state is returned as is. -/
def sdLoop : Nat → SDState → SDState
  | 0, st => st
  | fuel + 1, st =>
    let (t, lx) := lex_next st.lx
    match t.kind with
    | TokKind.kw Kw.KEEPALIVE =>
        let (t2, lx2) := lex_next lx
        if t2.kind ≠ TokKind.punct 61 then
          { st with lx := lx2, err := some (ErrKind.expectedEq Kw.KEEPALIVE) }
        else
          let (t3, lx3) := lex_next lx2
          if t3.kind = TokKind.kw Kw.ON then
            let c := { st.conf with enableKeepAlive := true }
            sdLoop fuel { st with lx := lx3, conf := c }
          else if lex_prev lx3 = TokKind.kw Kw.OFF then
            let c := { st.conf with enableKeepAlive := false }
            sdLoop fuel { st with lx := lx3, conf := c }
          else
            { st with lx := lx3, err := some (ErrKind.expectedOnOff Kw.KEEPALIVE) }
    | TokKind.kw Kw.LOGFILE =>
        -- the expected-= message is unconditionally overwritten
        let p := lex_next lx
        { st with lx := p.2, err := some (ErrKind.notImplemented Kw.LOGFILE) }
    | TokKind.kw Kw.LOOPBACK =>
        let (t2, lx2) := lex_next lx
        if t2.kind ≠ TokKind.punct 61 then
          { st with lx := lx2, err := some (ErrKind.expectedEq Kw.LOOPBACK) }
        else
          let (t3, lx3) := lex_next lx2
          if t3.kind = TokKind.kw Kw.ON then
            let c := { st.conf with enableLoopBack := true }
            sdLoop fuel { st with lx := lx3, conf := c }
          else if lex_prev lx3 = TokKind.kw Kw.OFF then
            let c := { st.conf with enableLoopBack := false }
            sdLoop fuel { st with lx := lx3, conf := c }
          else
            { st with lx := lx3, err := some (ErrKind.expectedOnOff Kw.LOOPBACK) }
    | TokKind.kw Kw.PIDFILE =>
        let p := lex_next lx
        { st with lx := p.2, err := some (ErrKind.notImplemented Kw.PIDFILE) }
    | TokKind.kw Kw.PORT =>
        let (t2, lx2) := lex_next lx
        if t2.kind ≠ TokKind.punct 61 then
          { st with lx := lx2, err := some (ErrKind.expectedEq Kw.PORT) }
        else
          let (t3, lx3) := lex_next lx2
          if t3.kind ≠ TokKind.lstr ∧ lex_prev lx3 ≠ TokKind.lint then
            { st with lx := lx3, err := some (ErrKind.expectedInt Kw.PORT) }
          else
            let n := atoiM (lex_text lx3)
            if n ≤ 0 then
              { st with lx := lx3, err := some (ErrKind.invalidValue Kw.PORT n) }
            else
              let c := { st.conf with port := n }
              sdLoop fuel { st with lx := lx3, conf := c, evs := st.evs ++ [PEvent.setPort n] }
    | TokKind.kw Kw.TIMESTAMP =>
        let p := lex_next lx
        { st with lx := p.2, err := some (ErrKind.notImplemented Kw.TIMESTAMP) }
    | TokKind.eof => { st with lx := lx }
    | TokKind.eol => { st with lx := lx }
    | TokKind.lerr => { st with lx := lx, err := some ErrKind.unmatchedQuote }
    | _ => { st with lx := lx, err := some (ErrKind.unrecognized t.text) }

/-- The resynchronization loop after a directive error
(server-conf.c:390-391, 496-497): consume tokens until the previous token
is end-of-line or end-of-file. -/
def resync : Nat → LexState → LexState
  | 0, lx => lx
  | fuel + 1, lx =>
      if lex_prev lx ≠ TokKind.eol ∧ lex_prev lx ≠ TokKind.eof then
        resync fuel (lex_next lx).2
      else lx

/-- `parse_server_directive(l, conf)` (server-conf.c:409-500): run the
option loop; on error emit one `ERROR:` line to standard error and
resynchronize at end-of-line. -/
def parse_server_directive (lx : LexState) (conf : ServerConf) :
    LexState × ServerConf × List ErrLine × List PEvent :=
  let st := sdLoop (lx.rest.length + 1) { lx := lx, conf := conf, err := none, evs := [] }
  match st.err with
  | some e =>
      let l : ErrLine := { line := lex_line st.lx, msg := e, toStderr := true }
      (resync (st.lx.rest.length + 1) st.lx, st.conf, [l], st.evs)
  | none => (st.lx, st.conf, [], st.evs)

/-- Locals of `parse_console_directive`'s option loop. -/
structure CDState where
  lx : LexState
  name : List Nat
  dev : List Nat
  log : List Nat
  bps : Int
  err : Option ErrKind
deriving Repr

/-- The option loop of `parse_console_directive` (server-conf.c:326-382).
Note the `DEV` case (server-conf.c:339-349): the source performs a second
unconditional `strlcpy(dev, lex_text(l), ...)` after the if-chain, so
`dev` is always overwritten with the current token's text. -/
def cdLoop : Nat → CDState → CDState
  | 0, st => st
  | fuel + 1, st =>
    let (t, lx) := lex_next st.lx
    match t.kind with
    | TokKind.kw Kw.NAME =>
        let (t2, lx2) := lex_next lx
        if t2.kind ≠ TokKind.punct 61 then
          { st with lx := lx2, err := some (ErrKind.expectedEq Kw.NAME) }
        else
          let (t3, lx3) := lex_next lx2
          if t3.kind ≠ TokKind.lstr then
            { st with lx := lx3, err := some (ErrKind.expectedString Kw.NAME) }
          else
            cdLoop fuel { st with lx := lx3, name := lex_text lx3 }
    | TokKind.kw Kw.DEV =>
        let (t2, lx2) := lex_next lx
        if t2.kind ≠ TokKind.punct 61 then
          { st with lx := lx2, dev := lex_text lx2, err := some (ErrKind.expectedEq Kw.DEV) }
        else
          let (t3, lx3) := lex_next lx2
          if t3.kind ≠ TokKind.lstr then
            { st with lx := lx3, dev := lex_text lx3, err := some (ErrKind.expectedString Kw.DEV) }
          else
            cdLoop fuel { st with lx := lx3, dev := lex_text lx3 }
    | TokKind.kw Kw.LOG =>
        let (t2, lx2) := lex_next lx
        if t2.kind ≠ TokKind.punct 61 then
          { st with lx := lx2, err := some (ErrKind.expectedEq Kw.LOG) }
        else
          let (t3, lx3) := lex_next lx2
          if t3.kind ≠ TokKind.lstr then
            { st with lx := lx3, err := some (ErrKind.expectedString Kw.LOG) }
          else
            cdLoop fuel { st with lx := lx3, log := lex_text lx3 }
    | TokKind.kw Kw.BPS =>
        let (t2, lx2) := lex_next lx
        if t2.kind ≠ TokKind.punct 61 then
          { st with lx := lx2, err := some (ErrKind.expectedEq Kw.BPS) }
        else
          let (t3, lx3) := lex_next lx2
          if t3.kind ≠ TokKind.lstr ∧ lex_prev lx3 ≠ TokKind.lint then
            { st with lx := lx3, err := some (ErrKind.expectedInt Kw.BPS) }
          else
            let b := atoiM (lex_text lx3)
            if b ≤ 0 then
              { st with lx := lx3, bps := b, err := some (ErrKind.invalidValue Kw.BPS b) }
            else
              cdLoop fuel { st with lx := lx3, bps := b }
    | TokKind.eof => { st with lx := lx }
    | TokKind.eol => { st with lx := lx }
    | TokKind.lerr => { st with lx := lx, err := some ErrKind.unmatchedQuote }
    | _ => { st with lx := lx, err := some (ErrKind.unrecognized t.text) }

/-- `parse_console_directive(l, conf)` (server-conf.c:309-406).  `dkw` is
the directive keyword recovered from `lex_prev` at entry.  The success
branch's object construction (`create_console_obj`/`create_logfile_obj`/
`link_objs`, whose implementations with this signature are not under
`src/`) is recorded as a `consoleCreated` event. -/
def parse_console_directive (lx : LexState) (conf : ServerConf) :
    LexState × ServerConf × List ErrLine × List PEvent :=
  let dkw := lex_prev lx
  let st0 : CDState := { lx := lx, name := [], dev := [], log := [],
                         bps := DEFAULT_CONSOLE_BAUD, err := none }
  let st := cdLoop (lx.rest.length + 1) st0
  let st :=
    if st.err = none ∧ (st.name = [] ∨ st.dev = []) then
      { st with err := some (ErrKind.incomplete dkw) }
    else st
  match st.err with
  | some e =>
      let l : ErrLine := { line := lex_line st.lx, msg := e, toStderr := true }
      (resync (st.lx.rest.length + 1) st.lx, conf, [l], [])
  | none =>
      (st.lx, conf, [],
       [PEvent.consoleCreated st.name st.dev st.log st.bps])

/-- The skip-to-end-of-line loop of the unrecognized-token case in
`process_server_conf_file` (server-conf.c:248-249). -/
def skipToEol : Nat → TokKind → LexState → LexState
  | 0, _, lx => lx
  | fuel + 1, tok, lx =>
      if tok ≠ TokKind.eol ∧ tok ≠ TokKind.eof then
        let (t, lx2) := lex_next lx
        skipToEol fuel t.kind lx2
      else lx

/-- The directive-dispatch loop of `process_server_conf_file`
(server-conf.c:231-252).  Top-level diagnostics are issued by `printf`
(standard output), hence `toStderr := false` on those lines. -/
def confLoop : Nat → LexState → ServerConf →
    LexState × ServerConf × List ErrLine × List PEvent
  | 0, lx, conf => (lx, conf, [], [])
  | fuel + 1, lx, conf =>
    let (t, lx1) := lex_next lx
    match t.kind with
    | TokKind.eof => (lx1, conf, [], [])
    | TokKind.kw Kw.CONSOLE =>
        let r := parse_console_directive lx1 conf
        let r2 := confLoop fuel r.1 r.2.1
        (r2.1, r2.2.1, r.2.2.1 ++ r2.2.2.1, r.2.2.2 ++ r2.2.2.2)
    | TokKind.kw Kw.SERVER =>
        let r := parse_server_directive lx1 conf
        let r2 := confLoop fuel r.1 r.2.1
        (r2.1, r2.2.1, r.2.2.1 ++ r2.2.2.1, r.2.2.2 ++ r2.2.2.2)
    | TokKind.eol => confLoop fuel lx1 conf
    | TokKind.lerr =>
        let e : ErrLine := { line := lex_line lx1, msg := ErrKind.unmatchedQuote,
                             toStderr := false }
        let r2 := confLoop fuel lx1 conf
        (r2.1, r2.2.1, e :: r2.2.2.1, r2.2.2.2)
    | _ =>
        let e : ErrLine := { line := lex_line lx1,
                             msg := ErrKind.unrecognized (lex_text lx1),
                             toStderr := false }
        let lx2 := skipToEol (lx1.rest.length + 1) t.kind lx1
        let r2 := confLoop fuel lx2 conf
        (r2.1, r2.2.1, e :: r2.2.2.1, r2.2.2.2)

/-- `process_server_conf_file(conf)` (server-conf.c:192-264), given the
token stream of the configuration file (the open/lock/stat/read steps are
fatal on failure, so a returning call implies they succeeded).
`defaultPort` models the compiled-in macro `DEFAULT_CONMAN_PORT` (its
header is not under `src/`).  Ends with the port kludge: restore a
positive pre-parse port, else substitute the default when still unset. -/
def process_server_conf_file (conf : ServerConf) (toks : List Tok)
    (defaultPort : Int) : LexState × ServerConf × List ErrLine × List PEvent :=
  let port := conf.port
  let r := confLoop (toks.length + 1) (lex_create toks) conf
  let c1 := r.2.1
  let c2 :=
    if 0 < port then { c1 with port := port }
    else if c1.port ≤ 0 then { c1 with port := defaultPort }
    else c1
  (r.1, c2, r.2.2.1, r.2.2.2)

/-- The port carried by a configuration event, if any. -/
def evPort : PEvent → Option Int
  | PEvent.setPort n => some n
  | _ => none

/-- The last `setPort` value of an event trace (the spec's "last such
value" for `SERVER PORT=` precedence). -/
def lastPort : List PEvent → Option Int
  | [] => none
  | e :: t =>
      match lastPort t with
      | some n => some n
      | none => evPort e

/-- Abbreviation for the post-write input index of `write_obj_data_core`
on a length-`L` write. -/
def wodIn (B inn L : Nat) : Nat := if inn + L = B then 0 else inn + L

/-! ## Concrete instances used by witnesses and counterexamples -/

/-- A console object with an empty 8-byte circular buffer. -/
def emptyConsole8 : Obj :=
  { name := [], otype := ObjType.CONSOLE, fd := 4, gotEOF := false,
    buf := [0, 0, 0, 0, 0, 0, 0, 0], bufIn := 0, bufOut := 0,
    writer := none, readers := [], alive := true }

/-- A console whose 8-byte buffer holds 6 bytes (`out = 0`, `in = 6`),
leaving `avail = 2` by the code's accounting. -/
def fullConsole8 : Obj :=
  { name := [], otype := ObjType.CONSOLE, fd := 4, gotEOF := false,
    buf := [10, 11, 12, 13, 14, 15, 0, 0], bufIn := 6, bufOut := 0,
    writer := none, readers := [], alive := true }

/-- A live socket with an open descriptor and an empty buffer. -/
def sock5 : Obj :=
  { name := [], otype := ObjType.SOCKET, fd := 5, gotEOF := false,
    buf := [0, 0, 0, 0, 0, 0, 0, 0], bufIn := 0, bufOut := 0,
    writer := none, readers := [], alive := true }

/-- A four-object store: object 0 is a console written by socket 1 and
read by sockets 2 and 3 (all edges symmetric, all buffers empty). -/
def closeStore : Store :=
  [ { name := [], otype := ObjType.CONSOLE, fd := 4, gotEOF := false,
      buf := [0, 0, 0, 0, 0, 0, 0, 0], bufIn := 0, bufOut := 0,
      writer := some 1, readers := [2, 3], alive := true },
    { name := [], otype := ObjType.SOCKET, fd := 7, gotEOF := false,
      buf := [0, 0, 0, 0, 0, 0, 0, 0], bufIn := 0, bufOut := 0,
      writer := none, readers := [0], alive := true },
    { name := [], otype := ObjType.SOCKET, fd := 8, gotEOF := false,
      buf := [0, 0, 0, 0, 0, 0, 0, 0], bufIn := 0, bufOut := 0,
      writer := some 0, readers := [], alive := true },
    { name := [], otype := ObjType.SOCKET, fd := 9, gotEOF := false,
      buf := [0, 0, 0, 0, 0, 0, 0, 0], bufIn := 0, bufOut := 0,
      writer := some 0, readers := [], alive := true } ]

/-- A three-object store for the steal scenario of spec scenario 5:
socket 1 is in R/W use of console 0 — it writes the console
(`(obj 0).writer = some 1`, mirrored by `0 ∈ (obj 1).readers`) and reads
it back (`(obj 1).writer = some 0`, mirrored by `1 ∈ (obj 0).readers`);
socket 2 is unlinked.  All descriptors are open, all buffers empty. -/
def linkStore : Store :=
  [ { name := [116, 116, 121], otype := ObjType.CONSOLE, fd := 6, gotEOF := false,
      buf := [0, 0, 0, 0, 0, 0, 0, 0], bufIn := 0, bufOut := 0,
      writer := some 1, readers := [1], alive := true },
    { name := [99, 49], otype := ObjType.SOCKET, fd := 7, gotEOF := false,
      buf := [0, 0, 0, 0, 0, 0, 0, 0], bufIn := 0, bufOut := 0,
      writer := some 0, readers := [0], alive := true },
    { name := [99, 50], otype := ObjType.SOCKET, fd := 8, gotEOF := false,
      buf := [0, 0, 0, 0, 0, 0, 0, 0], bufIn := 0, bufOut := 0,
      writer := none, readers := [], alive := true } ]

/-- The result of socket 2 stealing console 0 from socket 1 on
`linkStore` (events in program order). -/
def linkRes : Store × List LinkEvent :=
  (create_obj_link 8 linkStore 2 0 [110, 111, 119] 9 9).getD ([], [])

/-- A configuration with no command-line port. -/
def confZero : ServerConf :=
  { port := 0, enableKeepAlive := false, enableLoopBack := false }

/-- An end-of-line token. -/
def eolTok : Tok := { kind := TokKind.eol, text := [], line := 1 }

/-- An unmatched-quote lexer error token. -/
def lerrTok : Tok := { kind := TokKind.lerr, text := [34], line := 1 }

/-- The token stream of a one-line `SERVER PORT=7777` file
(byte 61 is `=`; 55 is the digit 7). -/
def toks7 : List Tok :=
  [ { kind := TokKind.kw Kw.SERVER, text := [83, 69, 82, 86, 69, 82], line := 1 },
    { kind := TokKind.kw Kw.PORT, text := [80, 79, 82, 84], line := 1 },
    { kind := TokKind.punct 61, text := [61], line := 1 },
    { kind := TokKind.lint, text := [55, 55, 55, 55], line := 1 },
    eolTok ]

/-- A lexer positioned on an erroneous `PORT 5` option (missing `=`),
followed by an end-of-line. -/
def lx8 : LexState := lex_create
  [ { kind := TokKind.kw Kw.PORT, text := [80, 79, 82, 84], line := 2 },
    { kind := TokKind.lint, text := [53], line := 2 },
    { kind := TokKind.eol, text := [], line := 2 } ]

/-! ## Lemmas: the circular buffer -/

theorem memcpy_length (s : List Nat) : ∀ (buf : List Nat) (p : Nat),
    (memcpy buf p s).length = buf.length := by
  induction s with
  | nil => intro buf p; rfl
  | cons a t ih =>
      intro buf p
      show (memcpy (buf.set p a) (p + 1) t).length = buf.length
      rw [ih, List.length_set]

theorem getD_set_ne (l : List Nat) (p j a : Nat) (h : p ≠ j) :
    (l.set p a).getD j 0 = l.getD j 0 := by
  rw [List.getD_eq_getD_get?, List.getD_eq_getD_get?, List.get?_eq_getElem?,
    List.get?_eq_getElem?, List.getElem?_set, if_neg h]

theorem getD_set_self (l : List Nat) (p a : Nat) (h : p < l.length) :
    (l.set p a).getD p 0 = a := by
  rw [List.getD_eq_getD_get?, List.get?_eq_getElem?, List.getElem?_set]
  simp [h]

theorem memcpy_getD (s : List Nat) : ∀ (buf : List Nat) (p : Nat),
    p + s.length ≤ buf.length → ∀ j,
    (memcpy buf p s).getD j 0 =
      if p ≤ j ∧ j < p + s.length then s.getD (j - p) 0 else buf.getD j 0 := by
  induction s with
  | nil =>
      intro buf p _ j
      show buf.getD j 0 = _
      rw [if_neg (by simp only [List.length_nil]; omega :
        ¬ (p ≤ j ∧ j < p + List.length ([] : List Nat)))]
  | cons a t ih =>
      intro buf p h j
      have hp : p < buf.length := by
        simp only [List.length_cons] at h; omega
      have h2 : (p + 1) + t.length ≤ (buf.set p a).length := by
        rw [List.length_set]; simp only [List.length_cons] at h; omega
      show (memcpy (buf.set p a) (p + 1) t).getD j 0 = _
      rw [ih (buf.set p a) (p + 1) h2 j]
      by_cases hj : j = p
      · subst hj
        have hc1 : ¬ (j + 1 ≤ j ∧ j < j + 1 + t.length) := by omega
        have hc2 : j ≤ j ∧ j < j + (a :: t).length := by
          simp only [List.length_cons]; omega
        rw [if_neg hc1, if_pos hc2, getD_set_self buf j a hp,
          Nat.sub_self, List.getD_cons_zero]
      · by_cases hc : p ≤ j ∧ j < p + (a :: t).length
        · have hc1 : p + 1 ≤ j ∧ j < p + 1 + t.length := by
            simp only [List.length_cons] at hc; omega
          rw [if_pos hc1, if_pos hc]
          have hjp : j - p = (j - (p + 1)) + 1 := by omega
          rw [hjp, List.getD_cons_succ]
        · have hc1 : ¬ (p + 1 ≤ j ∧ j < p + 1 + t.length) := by
            simp only [List.length_cons] at hc; omega
          rw [if_neg hc1, if_neg hc, getD_set_ne buf p j a (fun he => hj he.symm)]

theorem bufPos_lt (B start k : Nat) (hs : start < B) (hk : k < B) :
    bufPos B start k < B := by
  unfold bufPos; split <;> omega

theorem occupancy_eq_wdist (B : Nat) (obj : Obj) :
    occupancy B obj = wdist B obj.bufOut obj.bufIn := rfl

theorem wdist_bufPos (B inn t : Nat) (hi : inn < B) (ht : t < B) :
    wdist B inn (bufPos B inn t) = t := by
  unfold wdist bufPos; split_ifs <;> omega

theorem bufPos_wdist (B inn j : Nat) (hi : inn < B) (hj : j < B) :
    bufPos B inn (wdist B inn j) = j := by
  unfold bufPos wdist; split_ifs <;> omega

theorem wdist_bufPos_from (B inn out k : Nat) (hi : inn < B) (ho : out < B)
    (hk : k < B) :
    wdist B inn (bufPos B out k) =
      if wdist B out inn ≤ k then k - wdist B out inn
      else (B - wdist B out inn) + k := by
  unfold wdist bufPos; split_ifs <;> omega

theorem bufPos_add (B start a b : Nat) (hs : start < B) (hab : a + b < B) :
    bufPos B (bufPos B start a) b = bufPos B start (a + b) := by
  unfold bufPos; split_ifs <;> omega

theorem bufPos_add_wrap (B start a b : Nat) (hs : start < B) (ha : a < B)
    (hb : b < B) (hab : B ≤ a + b) :
    bufPos B (bufPos B start a) b = bufPos B start (a + b - B) := by
  unfold bufPos; split_ifs <;> omega

theorem bufContents_length (B : Nat) (obj : Obj) :
    (bufContents B obj).length = occupancy B obj := by
  simp [bufContents]

theorem bufContents_getElem (B : Nat) (obj : Obj) (k : Nat)
    (hk : k < (bufContents B obj).length) :
    (bufContents B obj)[k] = obj.buf.getD (bufPos B obj.bufOut k) 0 := by
  simp [bufContents]

theorem occupancy_le (B : Nat) (obj : Obj) (hi : obj.bufIn < B)
    (ho : obj.bufOut < B) : occupancy B obj ≤ B - 1 := by
  unfold occupancy; split_ifs <;> omega

theorem occupancy_eq_zero_iff (B : Nat) (obj : Obj) (hi : obj.bufIn < B)
    (ho : obj.bufOut < B) : occupancy B obj = 0 ↔ obj.bufIn = obj.bufOut := by
  unfold occupancy; split_ifs <;> omega

theorem avail_eq (B : Nat) (obj : Obj) (hi : obj.bufIn < B)
    (ho : obj.bufOut < B) :
    avail_before_overwrite B obj =
      if occupancy B obj = 0 then B - 1 else B - occupancy B obj := by
  unfold avail_before_overwrite occupancy; split_ifs <;> omega

theorem wod_core_nw (B : Nat) (obj : Obj) (s : List Nat) (hs1 : 0 < s.length)
    (hnw : s.length ≤ B - obj.bufIn) :
    write_obj_data_core B obj s s.length =
      ({ obj with
         buf := memcpy obj.buf obj.bufIn s,
         bufIn := wodIn B obj.bufIn s.length,
         bufOut :=
           if avail_before_overwrite B obj < s.length then
             (if wodIn B obj.bufIn s.length + 1 = B then 0
              else wodIn B obj.bufIn s.length + 1)
           else obj.bufOut },
       if avail_before_overwrite B obj < s.length then
         some (s.length - avail_before_overwrite B obj) else none) := by
  unfold write_obj_data_core wodIn
  have hm : min s.length (B - obj.bufIn) = s.length := Nat.min_eq_left hnw
  simp only [hm, List.take_length, List.take_take, Nat.min_self, if_pos hs1,
    Nat.sub_self, Nat.lt_irrefl, if_false]

theorem wod_core_w (B : Nat) (obj : Obj) (s : List Nat) (hi : obj.bufIn < B)
    (hw : B - obj.bufIn < s.length) :
    write_obj_data_core B obj s s.length =
      ({ obj with
         buf := memcpy (memcpy obj.buf obj.bufIn (s.take (B - obj.bufIn))) 0
                  (s.drop (B - obj.bufIn)),
         bufIn := s.length - (B - obj.bufIn),
         bufOut :=
           if avail_before_overwrite B obj < s.length then
             (if (s.length - (B - obj.bufIn)) + 1 = B then 0
              else (s.length - (B - obj.bufIn)) + 1)
           else obj.bufOut },
       if avail_before_overwrite B obj < s.length then
         some (s.length - avail_before_overwrite B obj) else none) := by
  unfold write_obj_data_core
  have hm : min s.length (B - obj.bufIn) = B - obj.bufIn :=
    Nat.min_eq_right (Nat.le_of_lt hw)
  have hm0 : 0 < B - obj.bufIn := by omega
  have hwrap : obj.bufIn + (B - obj.bufIn) = B := by omega
  have hn : 0 < s.length - (B - obj.bufIn) := by omega
  simp only [hm, List.take_length, if_pos hm0, hwrap, if_pos rfl, if_pos hn,
    if_true, Nat.zero_add]

theorem getD_drop (s : List Nat) (m k : Nat) :
    (s.drop m).getD k 0 = s.getD (m + k) 0 := by
  rw [List.getD_eq_getD_get?, List.getD_eq_getD_get?, List.get?_eq_getElem?,
    List.get?_eq_getElem?, List.getElem?_drop]

theorem getD_take (s : List Nat) (m k : Nat) (h : k < m) :
    (s.take m).getD k 0 = s.getD k 0 := by
  rw [List.getD_eq_getD_get?, List.getD_eq_getD_get?, List.get?_eq_getElem?,
    List.get?_eq_getElem?, List.getElem?_take, if_pos h]

theorem wod_core_buf_getD (B : Nat) (obj : Obj) (s : List Nat)
    (hbl : obj.buf.length = B) (hi : obj.bufIn < B) (hs1 : 0 < s.length)
    (hs2 : s.length ≤ B - 1) (j : Nat) (hj : j < B) :
    (write_obj_data_core B obj s s.length).1.buf.getD j 0 =
      if wdist B obj.bufIn j < s.length then s.getD (wdist B obj.bufIn j) 0
      else obj.buf.getD j 0 := by
  by_cases hnw : s.length ≤ B - obj.bufIn
  · rw [wod_core_nw B obj s hs1 hnw]
    show (memcpy obj.buf obj.bufIn s).getD j 0 = _
    rw [memcpy_getD s obj.buf obj.bufIn (by omega) j]
    unfold wdist
    split_ifs <;> first | rfl | omega
  · have hw : B - obj.bufIn < s.length := by omega
    rw [wod_core_w B obj s hi hw]
    show (memcpy (memcpy obj.buf obj.bufIn (s.take (B - obj.bufIn))) 0
      (s.drop (B - obj.bufIn))).getD j 0 = _
    have hinlen : (memcpy obj.buf obj.bufIn (s.take (B - obj.bufIn))).length = B := by
      rw [memcpy_length, hbl]
    have htl : (s.take (B - obj.bufIn)).length = B - obj.bufIn := by
      rw [List.length_take]; omega
    have hdl : (s.drop (B - obj.bufIn)).length = s.length - (B - obj.bufIn) :=
      List.length_drop _ _
    rw [memcpy_getD _ _ 0 (by rw [hinlen, hdl]; omega) j, hdl]
    by_cases h1 : j < s.length - (B - obj.bufIn)
    · rw [if_pos ⟨Nat.zero_le j, by omega⟩, getD_drop, Nat.sub_zero]
      have hwd : wdist B obj.bufIn j = (B - obj.bufIn) + j := by
        unfold wdist; rw [if_neg (by omega)]
      rw [hwd, if_pos (by omega)]
    · rw [if_neg (by omega)]
      rw [memcpy_getD _ _ _ (by rw [hbl, htl]; omega) j]
      by_cases h2 : obj.bufIn ≤ j
      · have hcond : obj.bufIn ≤ j ∧ j < obj.bufIn + (s.take (B - obj.bufIn)).length := by
          rw [htl]; omega
        rw [if_pos hcond, getD_take _ _ _ (by omega)]
        have hwd : wdist B obj.bufIn j = j - obj.bufIn := by
          unfold wdist; rw [if_pos h2]
        rw [hwd, if_pos (by omega)]
      · have hcond : ¬ (obj.bufIn ≤ j ∧ j < obj.bufIn + (s.take (B - obj.bufIn)).length) := by
          rw [htl]; omega
        rw [if_neg hcond]
        have hwd : wdist B obj.bufIn j = (B - obj.bufIn) + j := by
          unfold wdist; rw [if_neg h2]
        rw [hwd, if_neg (by omega)]

theorem wod_core_bufIn (B : Nat) (obj : Obj) (s : List Nat) (hi : obj.bufIn < B)
    (hs1 : 0 < s.length) (hs2 : s.length ≤ B - 1) :
    (write_obj_data_core B obj s s.length).1.bufIn = bufPos B obj.bufIn s.length := by
  by_cases hnw : s.length ≤ B - obj.bufIn
  · rw [wod_core_nw B obj s hs1 hnw]
    show wodIn B obj.bufIn s.length = _
    unfold wodIn bufPos; split_ifs <;> omega
  · rw [wod_core_w B obj s hi (by omega)]
    show s.length - (B - obj.bufIn) = _
    unfold bufPos; split_ifs <;> omega

theorem wod_core_bufOut (B : Nat) (obj : Obj) (s : List Nat) (hi : obj.bufIn < B)
    (hs1 : 0 < s.length) (hs2 : s.length ≤ B - 1) :
    (write_obj_data_core B obj s s.length).1.bufOut =
      if avail_before_overwrite B obj < s.length then
        bufPos B (bufPos B obj.bufIn s.length) 1
      else obj.bufOut := by
  by_cases hnw : s.length ≤ B - obj.bufIn
  · rw [wod_core_nw B obj s hs1 hnw]
    show (if avail_before_overwrite B obj < s.length then _ else obj.bufOut) = _
    unfold wodIn bufPos; split_ifs <;> omega
  · rw [wod_core_w B obj s hi (by omega)]
    show (if avail_before_overwrite B obj < s.length then _ else obj.bufOut) = _
    unfold bufPos; split_ifs <;> omega

theorem wod_core_log (B : Nat) (obj : Obj) (s : List Nat) (hi : obj.bufIn < B)
    (hs1 : 0 < s.length) :
    (write_obj_data_core B obj s s.length).2 =
      if avail_before_overwrite B obj < s.length then
        some (s.length - avail_before_overwrite B obj)
      else none := by
  by_cases hnw : s.length ≤ B - obj.bufIn
  · rw [wod_core_nw B obj s hs1 hnw]
  · rw [wod_core_w B obj s hi (by omega)]

theorem wod_core_buf_length (B : Nat) (obj : Obj) (s : List Nat)
    (hi : obj.bufIn < B) (hs1 : 0 < s.length) :
    (write_obj_data_core B obj s s.length).1.buf.length = obj.buf.length := by
  by_cases hnw : s.length ≤ B - obj.bufIn
  · rw [wod_core_nw B obj s hs1 hnw]
    exact memcpy_length s obj.buf obj.bufIn
  · rw [wod_core_w B obj s hi (by omega)]
    show (memcpy (memcpy _ _ _) 0 _).length = _
    rw [memcpy_length, memcpy_length]

theorem wod_eq_core (B : Nat) (obj : Obj) (s : List Nat) (hB : 2 ≤ B)
    (hs1 : 0 < s.length) (hs2 : s.length ≤ B - 1) :
    write_obj_data B obj (some s) (s.length : Int) =
      ((write_obj_data_core B obj s s.length).1, (s.length : Int),
       (write_obj_data_core B obj s s.length).2) := by
  unfold write_obj_data
  dsimp only
  rw [if_neg (by exact_mod_cast by omega : ¬ ((s.length : Int) ≤ 0)),
    if_neg (by exact_mod_cast by omega : ¬ ((B : Int) ≤ (s.length : Int)))]
  simp only [Int.toNat_natCast]

theorem wdist_lt (B inn j : Nat) (hi : inn < B) (hj : j < B) :
    wdist B inn j < B := by
  unfold wdist; split_ifs <;> omega

theorem wdist_pred (B x : Nat) (hB : 2 ≤ B) (hx : x < B) :
    wdist B (bufPos B x 1) x = B - 1 := by
  unfold wdist bufPos; split_ifs <;> omega

theorem sub_pred_eq (a b : Nat) (h : 1 ≤ b) : a + 1 - b = a - (b - 1) := by
  omega

theorem getD_append_left (xs ys : List Nat) (i : Nat) (h : i < xs.length) :
    (xs ++ ys).getD i 0 = xs.getD i 0 := by
  rw [List.getD_eq_getD_get?, List.getD_eq_getD_get?, List.get?_eq_getElem?,
    List.get?_eq_getElem?, List.getElem?_append_left h]

theorem getD_append_right (xs ys : List Nat) (i : Nat) (h : xs.length ≤ i) :
    (xs ++ ys).getD i 0 = ys.getD (i - xs.length) 0 := by
  rw [List.getD_eq_getD_get?, List.getD_eq_getD_get?, List.get?_eq_getElem?,
    List.get?_eq_getElem?, List.getElem?_append_right h]

theorem bufContents_getD (B : Nat) (obj : Obj) (k : Nat)
    (hk : k < occupancy B obj) :
    (bufContents B obj).getD k 0 = obj.buf.getD (bufPos B obj.bufOut k) 0 := by
  rw [List.getD_eq_getElem _ 0 (by rw [bufContents_length]; exact hk)]
  exact bufContents_getElem B obj k (by rw [bufContents_length]; exact hk)

theorem wod_core_contents_append (B : Nat) (obj : Obj) (s : List Nat)
    (hbl : obj.buf.length = B) (hi : obj.bufIn < B) (ho : obj.bufOut < B)
    (hs1 : 0 < s.length) (hs2 : s.length ≤ B - 1)
    (hfit : occupancy B obj + s.length ≤ B - 1) :
    bufContents B (write_obj_data_core B obj s s.length).1 =
      bufContents B obj ++ s := by
  have hfit2 : wdist B obj.bufOut obj.bufIn + s.length ≤ B - 1 := by
    rw [← occupancy_eq_wdist]; exact hfit
  have hA : ¬ (avail_before_overwrite B obj < s.length) := by
    rw [avail_eq B obj hi ho]
    split_ifs with h0
    · omega
    · have := occupancy_le B obj hi ho
      omega
  have hOutEq : (write_obj_data_core B obj s s.length).1.bufOut = obj.bufOut := by
    rw [wod_core_bufOut B obj s hi hs1 hs2, if_neg hA]
  have hInEq : (write_obj_data_core B obj s s.length).1.bufIn
      = bufPos B obj.bufOut (wdist B obj.bufOut obj.bufIn + s.length) := by
    rw [wod_core_bufIn B obj s hi hs1 hs2]
    conv_lhs => rw [show obj.bufIn = bufPos B obj.bufOut (wdist B obj.bufOut obj.bufIn)
      from (bufPos_wdist B obj.bufOut obj.bufIn ho hi).symm]
    rw [bufPos_add B obj.bufOut _ s.length ho (by omega)]
  have hOcc : occupancy B (write_obj_data_core B obj s s.length).1
      = wdist B obj.bufOut obj.bufIn + s.length := by
    rw [occupancy_eq_wdist, hOutEq, hInEq,
      wdist_bufPos B obj.bufOut _ ho (by omega)]
  have hlen0 : (bufContents B obj).length = wdist B obj.bufOut obj.bufIn := by
    rw [bufContents_length, occupancy_eq_wdist]
  apply List.ext_getElem
  · rw [bufContents_length, hOcc, List.length_append, hlen0]
  · intro k h1 h2
    rw [← List.getD_eq_getElem _ 0 h1, ← List.getD_eq_getElem _ 0 h2]
    rw [bufContents_length, hOcc] at h1
    rw [bufContents_getD B _ k (by rw [hOcc]; exact h1), hOutEq,
      wod_core_buf_getD B obj s hbl hi hs1 hs2 (bufPos B obj.bufOut k)
        (bufPos_lt B obj.bufOut k ho (by omega)),
      wdist_bufPos_from B obj.bufIn obj.bufOut k hi ho (by omega)]
    by_cases hk : wdist B obj.bufOut obj.bufIn ≤ k
    · rw [if_pos hk, if_pos (by omega),
        getD_append_right _ _ k (by rw [hlen0]; omega), hlen0]
    · rw [if_neg hk, if_neg (by omega),
        getD_append_left _ _ k (by rw [hlen0]; omega),
        bufContents_getD B obj k (by rw [occupancy_eq_wdist]; omega)]

theorem ov_arith (B P L k : Nat) (hB : 2 ≤ B) (hP : P ≤ B - 1) (hL1 : 0 < L)
    (hL : L ≤ B - 1) (hPB : B < P + L) (hk : k < B - 1) :
    (P + L + 1 - B + k < P →
       P + L + 1 - B + k < B ∧ ¬ (P ≤ P + L + 1 - B + k) ∧
       ¬ (B - P + (P + L + 1 - B + k) < L))
  ∧ (¬ (P + L + 1 - B + k < P) → P + L + 1 - B + k < B →
       P ≤ P + L + 1 - B + k ∧ P + L + 1 - B + k - P < L)
  ∧ (¬ (P + L + 1 - B + k < B) →
       P + L + 1 - B < B ∧ B ≤ P + L + 1 - B + k ∧ P + L + 1 - B + k - B < B ∧
       ¬ (P ≤ P + L + 1 - B + k - B) ∧ B - P + (P + L + 1 - B + k - B) < L ∧
       B - P + (P + L + 1 - B + k - B) = P + L + 1 - B + k - P ∧
       P ≤ P + L + 1 - B + k) := by
  omega

theorem bufPos_zero (B start : Nat) (hs : start < B) : bufPos B start 0 = start := by
  unfold bufPos; split_ifs <;> omega

theorem wdist_self (B x : Nat) : wdist B x x = 0 := by
  unfold wdist; split_ifs <;> omega

theorem wod_core_occupancy (B : Nat) (obj : Obj) (s : List Nat) (hB : 2 ≤ B)
    (hi : obj.bufIn < B) (ho : obj.bufOut < B)
    (hs1 : 0 < s.length) (hs2 : s.length ≤ B - 1) :
    occupancy B (write_obj_data_core B obj s s.length).1 =
      if occupancy B obj ≠ 0 ∧ occupancy B obj + s.length = B then 0
      else min (occupancy B obj + s.length) (B - 1) := by
  have hPle := occupancy_le B obj hi ho
  have hP2 : wdist B obj.bufOut obj.bufIn = occupancy B obj :=
    (occupancy_eq_wdist B obj).symm
  by_cases hov : avail_before_overwrite B obj < s.length
  · -- overwrite: the loser keeps exactly B - 1 bytes
    have hPpos : occupancy B obj ≠ 0 := by
      intro h0
      rw [avail_eq B obj hi ho, if_pos h0] at hov
      omega
    have hPB : B < occupancy B obj + s.length := by
      rw [avail_eq B obj hi ho, if_neg hPpos] at hov
      omega
    have hIn2 : bufPos B obj.bufIn s.length
        = bufPos B obj.bufOut (occupancy B obj + s.length - B) := by
      conv_lhs => rw [show obj.bufIn = bufPos B obj.bufOut (wdist B obj.bufOut obj.bufIn)
        from (bufPos_wdist B obj.bufOut obj.bufIn ho hi).symm]
      rw [hP2, bufPos_add_wrap B obj.bufOut _ s.length ho (by omega) (by omega) (by omega)]
    have hgoal : occupancy B (write_obj_data_core B obj s s.length).1 = B - 1 := by
      rw [occupancy_eq_wdist, wod_core_bufIn B obj s hi hs1 hs2,
        wod_core_bufOut B obj s hi hs1 hs2, if_pos hov, hIn2,
        wdist_pred B _ hB (bufPos_lt B obj.bufOut _ ho (by omega))]
    rw [hgoal, if_neg (by omega)]
    omega
  · by_cases hbad : occupancy B obj ≠ 0 ∧ occupancy B obj + s.length = B
    · -- the write lands exactly on bufOut: the buffer looks empty
      have hIn2 : bufPos B obj.bufIn s.length = obj.bufOut := by
        conv_lhs => rw [show obj.bufIn = bufPos B obj.bufOut (wdist B obj.bufOut obj.bufIn)
          from (bufPos_wdist B obj.bufOut obj.bufIn ho hi).symm]
        rw [hP2, bufPos_add_wrap B obj.bufOut _ s.length ho (by omega) (by omega) (by omega),
          show occupancy B obj + s.length - B = 0 by omega, bufPos_zero B obj.bufOut ho]
      rw [occupancy_eq_wdist, wod_core_bufIn B obj s hi hs1 hs2,
        wod_core_bufOut B obj s hi hs1 hs2, if_neg hov, hIn2, wdist_self,
        if_pos hbad]
    · -- plain append
      have hfit : occupancy B obj + s.length ≤ B - 1 := by
        rw [avail_eq B obj hi ho] at hov
        by_cases h0 : occupancy B obj = 0
        · rw [if_pos h0] at hov
          omega
        · rw [if_neg h0] at hov
          omega
      have hIn2 : bufPos B obj.bufIn s.length
          = bufPos B obj.bufOut (occupancy B obj + s.length) := by
        conv_lhs => rw [show obj.bufIn = bufPos B obj.bufOut (wdist B obj.bufOut obj.bufIn)
          from (bufPos_wdist B obj.bufOut obj.bufIn ho hi).symm]
        rw [hP2, bufPos_add B obj.bufOut _ s.length ho (by omega)]
      rw [occupancy_eq_wdist, wod_core_bufIn B obj s hi hs1 hs2,
        wod_core_bufOut B obj s hi hs1 hs2, if_neg hov, hIn2,
        wdist_bufPos B obj.bufOut _ ho (by omega), if_neg hbad]
      omega

theorem wod_core_bounds (B : Nat) (obj : Obj) (s : List Nat) (len : Nat)
    (hB : 2 ≤ B) (hi : obj.bufIn < B) (ho : obj.bufOut < B)
    (hlen1 : 0 < len) (hlen2 : len ≤ B - 1) :
    (write_obj_data_core B obj s len).1.bufIn < B ∧
    (write_obj_data_core B obj s len).1.bufOut < B := by
  unfold write_obj_data_core
  dsimp only
  split_ifs <;> constructor <;> omega

theorem wod_bounds (B : Nat) (obj : Obj) (src : Option (List Nat)) (len0 : Int)
    (hB : 2 ≤ B) (hi : obj.bufIn < B) (ho : obj.bufOut < B) :
    (write_obj_data B obj src len0).1.bufIn < B ∧
    (write_obj_data B obj src len0).1.bufOut < B := by
  match src with
  | none => exact ⟨hi, ho⟩
  | some s =>
    unfold write_obj_data
    dsimp only
    by_cases h0 : len0 ≤ 0
    · rw [if_pos h0]
      exact ⟨hi, ho⟩
    · rw [if_neg h0]
      by_cases hc : (B : Int) ≤ len0
      · rw [if_pos hc]
        exact wod_core_bounds B obj s (B - 1) hB hi ho (by omega) (by omega)
      · rw [if_neg hc]
        exact wod_core_bounds B obj s len0.toNat hB hi ho (by omega) (by omega)

theorem wod_core_contents_overrun (B : Nat) (obj : Obj) (s : List Nat) (hB : 2 ≤ B)
    (hbl : obj.buf.length = B) (hi : obj.bufIn < B) (ho : obj.bufOut < B)
    (hs1 : 0 < s.length) (hs2 : s.length ≤ B - 1)
    (hov : avail_before_overwrite B obj < s.length) :
    bufContents B (write_obj_data_core B obj s s.length).1 =
      (bufContents B obj ++ s).drop (occupancy B obj + s.length - (B - 1)) := by
  have hPle := occupancy_le B obj hi ho
  have hP2 : wdist B obj.bufOut obj.bufIn = occupancy B obj :=
    (occupancy_eq_wdist B obj).symm
  have hPpos : occupancy B obj ≠ 0 := by
    intro h0
    rw [avail_eq B obj hi ho, if_pos h0] at hov
    omega
  have hPB : B < occupancy B obj + s.length := by
    rw [avail_eq B obj hi ho, if_neg hPpos] at hov
    omega
  rw [show occupancy B obj + s.length - (B - 1)
      = occupancy B obj + s.length + 1 - B
    from (sub_pred_eq (occupancy B obj + s.length) B (by omega)).symm]
  have hlen0 : (bufContents B obj).length = occupancy B obj := bufContents_length B obj
  have hIn2 : bufPos B obj.bufIn s.length
      = bufPos B obj.bufOut (occupancy B obj + s.length - B) := by
    conv_lhs => rw [show obj.bufIn = bufPos B obj.bufOut (wdist B obj.bufOut obj.bufIn)
      from (bufPos_wdist B obj.bufOut obj.bufIn ho hi).symm]
    rw [hP2, bufPos_add_wrap B obj.bufOut _ s.length ho (by omega) (by omega) (by omega)]
  have hInEq : (write_obj_data_core B obj s s.length).1.bufIn
      = bufPos B obj.bufOut (occupancy B obj + s.length - B) := by
    rw [wod_core_bufIn B obj s hi hs1 hs2, hIn2]
  have hOutEq : (write_obj_data_core B obj s s.length).1.bufOut
      = bufPos B obj.bufOut (occupancy B obj + s.length + 1 - B) := by
    rw [wod_core_bufOut B obj s hi hs1 hs2, if_pos hov, hIn2,
      bufPos_add B obj.bufOut _ 1 ho (by omega)]
    congr 1
    omega
  have hOcc : occupancy B (write_obj_data_core B obj s s.length).1 = B - 1 := by
    rw [occupancy_eq_wdist, hOutEq, hInEq]
    have h1 : bufPos B obj.bufOut (occupancy B obj + s.length + 1 - B)
        = bufPos B (bufPos B obj.bufOut (occupancy B obj + s.length - B)) 1 := by
      rw [bufPos_add B obj.bufOut _ 1 ho (by omega)]
      congr 1
      omega
    rw [h1, wdist_pred B _ hB (bufPos_lt B obj.bufOut _ ho (by omega))]
  apply List.ext_getElem
  · rw [bufContents_length, hOcc, List.length_drop, List.length_append, hlen0]
    omega
  · intro k h1 h2
    rw [← List.getD_eq_getElem _ 0 h1, ← List.getD_eq_getElem _ 0 h2]
    rw [bufContents_length, hOcc] at h1
    obtain ⟨a1, a2, a3⟩ := ov_arith B (occupancy B obj) s.length k hB hPle hs1 hs2 hPB h1
    rw [bufContents_getD B _ k (by rw [hOcc]; exact h1), hOutEq, getD_drop]
    by_cases hcase : occupancy B obj + s.length + 1 - B + k < occupancy B obj
    · -- position still holding prior content
      obtain ⟨b1, b2, b3⟩ := a1 hcase
      rw [bufPos_add B obj.bufOut _ k ho b1,
        wod_core_buf_getD B obj s hbl hi hs1 hs2 _
          (bufPos_lt B obj.bufOut _ ho b1),
        wdist_bufPos_from B obj.bufIn obj.bufOut _ hi ho b1, hP2]
      rw [if_neg b2, if_neg b3,
        getD_append_left _ _ _ (by rw [hlen0]; exact hcase),
        bufContents_getD B obj _ hcase]
    · -- position holding a freshly appended byte
      by_cases hwrapk : occupancy B obj + s.length + 1 - B + k < B
      · obtain ⟨b1, b2⟩ := a2 hcase hwrapk
        rw [bufPos_add B obj.bufOut _ k ho hwrapk,
          wod_core_buf_getD B obj s hbl hi hs1 hs2 _
            (bufPos_lt B obj.bufOut _ ho hwrapk),
          wdist_bufPos_from B obj.bufIn obj.bufOut _ hi ho hwrapk, hP2]
        rw [if_pos b1, if_pos b2,
          getD_append_right _ _ _ (by rw [hlen0]; exact b1), hlen0]
      · obtain ⟨b1, b2, b3, b4, b5, b6, b7⟩ := a3 hwrapk
        rw [bufPos_add_wrap B obj.bufOut _ k ho b1 (by omega) b2,
          wod_core_buf_getD B obj s hbl hi hs1 hs2 _
            (bufPos_lt B obj.bufOut _ ho b3),
          wdist_bufPos_from B obj.bufIn obj.bufOut _ hi ho b3, hP2]
        rw [if_neg b4, if_pos b5,
          getD_append_right _ _ _ (by rw [hlen0]; exact b7), hlen0, b6]

theorem wsl_replicate_eintr (B : Nat) (obj : Obj) :
    ∀ (k : Nat) (rs : List WriteResult),
      write_syscall_loop B obj (List.replicate k WriteResult.eintr ++ rs) =
        write_syscall_loop B obj rs := by
  intro k
  induction k with
  | zero => intro rs; rfl
  | succ k ih =>
      intro rs
      rw [List.replicate_succ, List.cons_append]
      show write_syscall_loop B obj (List.replicate k WriteResult.eintr ++ rs)
        = write_syscall_loop B obj rs
      exact ih rs

theorem wsl_bounds (B : Nat) (obj : Obj) (hi : obj.bufIn < B) (ho : obj.bufOut < B) :
    ∀ (results : List WriteResult) (o : Obj),
      (∀ n, WriteResult.wrote n ∈ results → n ≤ avail_to_write B obj) →
      write_syscall_loop B obj results = some (some o) →
      o.bufIn < B ∧ o.bufOut < B := by
  intro results
  induction results with
  | nil =>
      intro o _ h
      simp [write_syscall_loop] at h
  | cons r rs ih =>
      intro o hn h
      cases r with
      | eintr => exact ih o (fun n hmem => hn n (List.mem_cons_of_mem _ hmem)) h
      | epipe =>
          simp only [write_syscall_loop, Option.some.injEq] at h
          subst h
          refine ⟨?_, ?_⟩ <;> · show (0 : Nat) < B; omega
      | eagain =>
          simp only [write_syscall_loop, Option.some.injEq] at h
          subst h
          exact ⟨hi, ho⟩
      | ewouldblock =>
          simp only [write_syscall_loop, Option.some.injEq] at h
          subst h
          exact ⟨hi, ho⟩
      | err => simp [write_syscall_loop] at h
      | wrote n =>
          by_cases hn0 : 0 < n
          · have hnav : n ≤ avail_to_write B obj := hn n (List.mem_cons_self _ _)
            simp only [write_syscall_loop, if_pos hn0, Option.some.injEq] at h
            subst h
            refine ⟨hi, ?_⟩
            show (if obj.bufOut + n = B then 0 else obj.bufOut + n) < B
            unfold avail_to_write at hnav
            split_ifs at hnav ⊢ <;> omega
          · simp only [write_syscall_loop, if_neg hn0, Option.some.injEq] at h
            subst h
            exact ⟨hi, ho⟩

theorem wto_bounds (B : Nat) (obj : Obj) (results : List WriteResult) (o : Obj)
    (c : Bool) (hi : obj.bufIn < B) (ho : obj.bufOut < B)
    (hn : ∀ n, WriteResult.wrote n ∈ results → n ≤ avail_to_write B obj)
    (h : write_to_obj B obj results = WTOut.ok o c) :
    o.bufIn < B ∧ o.bufOut < B := by
  unfold write_to_obj at h
  by_cases hfd : obj.fd < 0
  · rw [if_pos hfd] at h
    cases h
    exact ⟨hi, ho⟩
  · rw [if_neg hfd] at h
    dsimp only at h
    by_cases hav : 0 < avail_to_write B obj
    · rw [if_pos hav] at h
      rcases hq : write_syscall_loop B obj results with _ | ⟨_ | o2⟩ <;> rw [hq] at h
      · cases h
      · cases h
      · cases h
        exact wsl_bounds B obj hi ho results o hn hq
    · rw [if_neg hav] at h
      cases h
      exact ⟨hi, ho⟩

theorem wto_closed_flag (B : Nat) (obj : Obj) (results : List WriteResult)
    (o : Obj) (c : Bool) (hfd : 0 ≤ obj.fd)
    (h : write_to_obj B obj results = WTOut.ok o c) :
    c = (o.gotEOF && decide (o.bufIn = o.bufOut)) := by
  unfold write_to_obj at h
  rw [if_neg (by omega)] at h
  dsimp only at h
  by_cases hav : 0 < avail_to_write B obj
  · rw [if_pos hav] at h
    rcases hq : write_syscall_loop B obj results with _ | ⟨_ | o2⟩ <;> rw [hq] at h
    · cases h
    · cases h
    · cases h
      rfl
  · rw [if_neg hav] at h
    cases h
    rfl

/-! ## Claim C2 -/

/-- C2: the buffer indices stay strictly inside `[0, MAX_BUF_SIZE)`
across `write_obj_data` (any source, any length) and across `write_to_obj`
(for any syscall outcomes in which `write(2)` returns at most the
requested run length); the buffer is empty exactly when `in == out`, and
it therefore holds at most `MAX_BUF_SIZE - 1` bytes. -/
theorem C2_buffer_invariants (B : Nat) (obj : Obj) :
    (∀ (src : Option (List Nat)) (len : Int),
       2 ≤ B → obj.bufIn < B → obj.bufOut < B →
       (write_obj_data B obj src len).1.bufIn < B ∧
       (write_obj_data B obj src len).1.bufOut < B)
  ∧ (∀ (results : List WriteResult) (o : Obj) (c : Bool),
       obj.bufIn < B → obj.bufOut < B →
       (∀ n, WriteResult.wrote n ∈ results → n ≤ avail_to_write B obj) →
       write_to_obj B obj results = WTOut.ok o c →
       o.bufIn < B ∧ o.bufOut < B)
  ∧ (obj.bufIn < B → obj.bufOut < B →
       (bufContents B obj = [] ↔ obj.bufIn = obj.bufOut) ∧
       (bufContents B obj).length ≤ B - 1) := by
  refine ⟨?_, ?_, ?_⟩
  · intro src len hB hi ho
    exact wod_bounds B obj src len hB hi ho
  · intro results o c hi ho hn h
    exact wto_bounds B obj results o c hi ho hn h
  · intro hi ho
    constructor
    · rw [← List.length_eq_zero, bufContents_length]
      exact occupancy_eq_zero_iff B obj hi ho
    · rw [bufContents_length]
      exact occupancy_le B obj hi ho

/-- C2 witness: a concrete write on a concrete object keeps the bounds. -/
theorem C2_witness :
    (2 ≤ 8 ∧ emptyConsole8.bufIn < 8 ∧ emptyConsole8.bufOut < 8)
  ∧ ((write_obj_data 8 emptyConsole8 (some [1, 2]) 2).1.bufIn < 8 ∧
     (write_obj_data 8 emptyConsole8 (some [1, 2]) 2).1.bufOut < 8) :=
  ⟨⟨by decide, by decide, by decide⟩,
   (C2_buffer_invariants 8 emptyConsole8).1 (some [1, 2]) 2
     (by decide) (by decide) (by decide)⟩

/-! ## Claim C6 -/

/-- C6: with an open descriptor and a non-empty buffer, `write_to_obj`
issues a single write for the contiguous run `avail_to_write` (from `out`
up to `in` when `in ≥ out`, else up to the buffer end) and dispatches on
the outcome: EINTR retries, EPIPE sets `gotEOF` and flushes
(`in = out = 0`, after which the close check fires), EAGAIN/EWOULDBLOCK
leave all buffer state unchanged, any other error is fatal, and a
positive return `n` advances `out` by exactly `n` with wrap-around while
`in` and the contents stay untouched. -/
theorem C6_write_to_obj_dispatch (B : Nat) (obj : Obj)
    (hfd : 0 ≤ obj.fd) (hi : obj.bufIn < B) (ho : obj.bufOut < B)
    (hne : obj.bufIn ≠ obj.bufOut) :
    avail_to_write B obj =
      (if obj.bufOut ≤ obj.bufIn then obj.bufIn - obj.bufOut else B - obj.bufOut)
  ∧ 0 < avail_to_write B obj
  ∧ (∀ (k : Nat) (rs : List WriteResult),
       write_to_obj B obj (List.replicate k WriteResult.eintr ++ rs) =
         write_to_obj B obj rs)
  ∧ write_to_obj B obj [WriteResult.epipe] =
      WTOut.ok { obj with gotEOF := true, bufIn := 0, bufOut := 0 } true
  ∧ write_to_obj B obj [WriteResult.eagain] = WTOut.ok obj false
  ∧ write_to_obj B obj [WriteResult.ewouldblock] = WTOut.ok obj false
  ∧ write_to_obj B obj [WriteResult.err] = WTOut.fatal
  ∧ (∀ n, 0 < n →
       write_to_obj B obj [WriteResult.wrote n] =
         WTOut.ok
           { obj with bufOut := if obj.bufOut + n = B then 0 else obj.bufOut + n }
           (obj.gotEOF &&
             decide (obj.bufIn = if obj.bufOut + n = B then 0 else obj.bufOut + n))) := by
  have hav : 0 < avail_to_write B obj := by
    unfold avail_to_write
    split_ifs <;> omega
  have hfd2 : ¬ obj.fd < 0 := by omega
  refine ⟨rfl, hav, ?_, ?_, ?_, ?_, ?_, ?_⟩
  · intro k rs
    unfold write_to_obj
    rw [wsl_replicate_eintr]
  · unfold write_to_obj
    rw [if_neg hfd2]
    dsimp only
    rw [if_pos hav]
    rfl
  · unfold write_to_obj
    rw [if_neg hfd2]
    dsimp only
    rw [if_pos hav]
    show WTOut.ok obj (obj.gotEOF && decide (obj.bufIn = obj.bufOut)) = _
    rw [decide_eq_false hne, Bool.and_false]
  · unfold write_to_obj
    rw [if_neg hfd2]
    dsimp only
    rw [if_pos hav]
    show WTOut.ok obj (obj.gotEOF && decide (obj.bufIn = obj.bufOut)) = _
    rw [decide_eq_false hne, Bool.and_false]
  · unfold write_to_obj
    rw [if_neg hfd2]
    dsimp only
    rw [if_pos hav]
    rfl
  · intro n hn0
    unfold write_to_obj write_syscall_loop
    rw [if_neg hfd2]
    dsimp only
    rw [if_pos hav, if_pos hn0]

/-- C6 witness: EPIPE on a concrete non-empty object flushes the buffer,
sets `gotEOF` and triggers the close check. -/
theorem C6_witness :
    ((0 : Int) ≤ fullConsole8.fd ∧ fullConsole8.bufIn ≠ fullConsole8.bufOut)
  ∧ write_to_obj 8 fullConsole8 [WriteResult.epipe] =
      WTOut.ok { fullConsole8 with gotEOF := true, bufIn := 0, bufOut := 0 } true :=
  ⟨⟨by decide, by decide⟩,
   (C6_write_to_obj_dispatch 8 fullConsole8 (by decide) (by decide) (by decide)
      (by decide)).2.2.2.1⟩

/-! ## Claim C1 -/

/-- C1 (amended).  For a buffer of size `B` holding `P = occupancy` bytes
and a source of length `L` with `1 ≤ L ≤ B - 1`, `write_obj_data` returns
`L`; the new occupancy is `min (P + L) (B - 1)` **except** when the buffer
is non-empty and `P + L = B` (i.e. `L` equals the code's free count `A`
exactly), in which case `in` lands on `out` and the occupancy is `0` with
nothing retrievable; when `L` exceeds the free count
`A = avail_before_overwrite` a log notice reports `L - A` overwritten
bytes and `out` is set to `(in + 1) mod B`, so the retrievable FIFO
content is the last `B - 1` bytes of the prior content followed by `src`;
and except in the `P + L = B` case the appended bytes are a retrievable
suffix, in order. -/
theorem C1_write_obj_data_spec (B : Nat) (obj : Obj) (s : List Nat)
    (hB : 2 ≤ B) (hbl : obj.buf.length = B) (hi : obj.bufIn < B)
    (ho : obj.bufOut < B) (hs1 : 0 < s.length) (hs2 : s.length ≤ B - 1) :
    (write_obj_data B obj (some s) (s.length : Int)).2.1 = (s.length : Int)
  ∧ occupancy B (write_obj_data B obj (some s) (s.length : Int)).1 =
      (if occupancy B obj ≠ 0 ∧ occupancy B obj + s.length = B then 0
       else min (occupancy B obj + s.length) (B - 1))
  ∧ (write_obj_data B obj (some s) (s.length : Int)).2.2 =
      (if avail_before_overwrite B obj < s.length then
        some (s.length - avail_before_overwrite B obj) else none)
  ∧ (avail_before_overwrite B obj < s.length →
      (write_obj_data B obj (some s) (s.length : Int)).1.bufOut =
        bufPos B (write_obj_data B obj (some s) (s.length : Int)).1.bufIn 1)
  ∧ (avail_before_overwrite B obj < s.length →
      bufContents B (write_obj_data B obj (some s) (s.length : Int)).1 =
        (bufContents B obj ++ s).drop (occupancy B obj + s.length - (B - 1)))
  ∧ (occupancy B obj + s.length ≤ B - 1 →
      bufContents B (write_obj_data B obj (some s) (s.length : Int)).1 =
        bufContents B obj ++ s)
  ∧ ((occupancy B obj + s.length ≤ B - 1 ∨ avail_before_overwrite B obj < s.length) →
      s <:+ bufContents B (write_obj_data B obj (some s) (s.length : Int)).1) := by
  rw [wod_eq_core B obj s hB hs1 hs2]
  dsimp only
  refine ⟨rfl, wod_core_occupancy B obj s hB hi ho hs1 hs2,
    wod_core_log B obj s hi hs1, ?_, ?_, ?_, ?_⟩
  · intro hov
    rw [wod_core_bufOut B obj s hi hs1 hs2, if_pos hov,
      wod_core_bufIn B obj s hi hs1 hs2]
  · intro hov
    exact wod_core_contents_overrun B obj s hB hbl hi ho hs1 hs2 hov
  · intro hfit
    exact wod_core_contents_append B obj s hbl hi ho hs1 hs2 hfit
  · intro h
    rcases h with hfit | hov
    · rw [wod_core_contents_append B obj s hbl hi ho hs1 hs2 hfit]
      exact List.suffix_append _ s
    · have hPpos : occupancy B obj ≠ 0 := by
        intro h0
        rw [avail_eq B obj hi ho, if_pos h0] at hov
        omega
      have hPB : B < occupancy B obj + s.length := by
        rw [avail_eq B obj hi ho, if_neg hPpos] at hov
        have := occupancy_le B obj hi ho
        omega
      rw [wod_core_contents_overrun B obj s hB hbl hi ho hs1 hs2 hov,
        show occupancy B obj + s.length - (B - 1)
            = occupancy B obj + s.length + 1 - B
          from (sub_pred_eq (occupancy B obj + s.length) B (by omega)).symm,
        List.drop_append_of_le_length (by rw [bufContents_length]; omega)]
      exact List.suffix_append _ s

/-- C1 counterexample: with `B = 8`, occupancy `P = 6` and a write of
`L = 2 = B - P` bytes, the claimed occupancy `min (P + L) (B - 1) = 7`
is wrong — the code leaves the buffer looking empty (occupancy `0`,
nothing retrievable, no overwrite notice). -/
theorem C1_counterexample :
    occupancy 8 fullConsole8 = 6
  ∧ (write_obj_data 8 fullConsole8 (some [21, 22]) 2).2.1 = 2
  ∧ (write_obj_data 8 fullConsole8 (some [21, 22]) 2).2.2 = none
  ∧ occupancy 8 (write_obj_data 8 fullConsole8 (some [21, 22]) 2).1 = 0
  ∧ bufContents 8 (write_obj_data 8 fullConsole8 (some [21, 22]) 2).1 = []
  ∧ ¬ (occupancy 8 (write_obj_data 8 fullConsole8 (some [21, 22]) 2).1
        = min (occupancy 8 fullConsole8 + 2) (8 - 1)) := by
  decide

/-- C1 witness: a plain in-bounds append on a concrete buffer, through
the amended theorem. -/
theorem C1_witness :
    (0 < [1, 2, 3].length ∧ [1, 2, 3].length ≤ 8 - 1)
  ∧ occupancy 8 (write_obj_data 8 emptyConsole8 (some [1, 2, 3])
        ([1, 2, 3].length : Int)).1 =
      (if occupancy 8 emptyConsole8 ≠ 0 ∧ occupancy 8 emptyConsole8 + [1, 2, 3].length = 8
       then 0
       else min (occupancy 8 emptyConsole8 + [1, 2, 3].length) (8 - 1)) :=
  ⟨⟨by decide, by decide⟩,
   (C1_write_obj_data_spec 8 emptyConsole8 [1, 2, 3] (by decide) (by decide)
      (by decide) (by decide) (by decide) (by decide)).2.1⟩

/-! ## Claim C9 -/

/-- C9: a NULL source or a non-positive length makes `write_obj_data`
return 0 with the object (buffer, indices, EOF flag and all) unchanged. -/
theorem C9_degenerate_write (B : Nat) (obj : Obj) (src : Option (List Nat))
    (len : Int) (h : src = none ∨ len ≤ 0) :
    write_obj_data B obj src len = (obj, 0, none) := by
  rcases h with h | h
  · subst h
    rfl
  · match src with
    | none => rfl
    | some s =>
        unfold write_obj_data
        dsimp only
        rw [if_pos h]

/-- C9 witness: length 0 on a concrete object. -/
theorem C9_witness :
    (some [1] = none ∨ (0 : Int) ≤ 0)
  ∧ write_obj_data 8 emptyConsole8 (some [1]) 0 = (emptyConsole8, 0, none) :=
  ⟨Or.inr (by decide),
   C9_degenerate_write 8 emptyConsole8 (some [1]) 0 (Or.inr (by decide))⟩

/-! ## Claim C4 -/

/-- C4: `close_obj`'s teardown step defers on a non-empty buffer (it only
sets `gotEOF`, keeping the descriptor open); on an empty buffer it clears
`gotEOF`, closes and releases `fd`, and destroys the object exactly when
it is a socket; and `write_to_obj`, after draining, invokes `close_obj`
exactly when `gotEOF` is set and the buffer is empty. -/
theorem C4_deferred_teardown (obj : Obj) :
    (obj.bufIn ≠ obj.bufOut →
       close_teardown obj = ({ obj with gotEOF := true }, none))
  ∧ (obj.bufIn = obj.bufOut → 0 ≤ obj.fd → obj.alive = true →
       (close_teardown obj).1.gotEOF = false ∧
       (close_teardown obj).1.fd = -1 ∧
       ((close_teardown obj).1.alive = false ↔ obj.otype = ObjType.SOCKET))
  ∧ (∀ (B : Nat) (results : List WriteResult) (o : Obj) (c : Bool),
       0 ≤ obj.fd →
       write_to_obj B obj results = WTOut.ok o c →
       (c = true ↔ (o.gotEOF = true ∧ o.bufIn = o.bufOut))) := by
  refine ⟨?_, ?_, ?_⟩
  · intro hne
    unfold close_teardown
    rw [if_pos hne]
  · intro heq hfd halive
    unfold close_teardown destroy_obj
    rw [if_neg (by intro hc; exact hc heq)]
    dsimp only
    rw [if_pos hfd]
    by_cases hso : obj.otype = ObjType.SOCKET
    · rw [if_pos hso]
      dsimp only
      refine ⟨rfl, ?_, by simp [hso]⟩
      show (if (0 : Int) ≤ -1 then (-1 : Int) else -1) = -1
      norm_num
    · rw [if_neg hso]
      dsimp only
      exact ⟨rfl, rfl, by simp [halive, hso]⟩
  · intro B results o c hfd h
    rw [wto_closed_flag B obj results o c hfd h]
    simp [Bool.and_eq_true, decide_eq_true_eq]

/-- C4 witness: closing a concrete drained socket releases the descriptor
and destroys it. -/
theorem C4_witness :
    (sock5.bufIn = sock5.bufOut ∧ (0 : Int) ≤ sock5.fd ∧ sock5.alive = true)
  ∧ ((close_teardown sock5).1.gotEOF = false ∧
     (close_teardown sock5).1.fd = -1 ∧
     ((close_teardown sock5).1.alive = false ↔ sock5.otype = ObjType.SOCKET)) :=
  ⟨⟨by decide, by decide, by decide⟩,
   (C4_deferred_teardown sock5).2.1 (by decide) (by decide) (by decide)⟩

/-! ## Claim C10 -/

/-- C10: every `destroy_obj` invocation reached from `close_obj`'s
teardown happens with the buffer empty (so the destroy assertion holds)
and with `fd` already closed and cleared (so the descriptor-closing
branch of `destroy_obj` is not taken: the descriptor closes once). -/
theorem C10_destroy_reached_safely (obj : Obj) (a f : Bool)
    (h : (close_teardown obj).2 = some (a, f)) :
    a = true ∧ f = false := by
  unfold close_teardown destroy_obj at h
  by_cases hne : obj.bufIn ≠ obj.bufOut
  · rw [if_pos hne] at h
    cases h
  · rw [if_neg hne] at h
    dsimp only at h
    by_cases hso : obj.otype = ObjType.SOCKET
    · by_cases hfd : (0 : Int) ≤ obj.fd
      · rw [if_pos hfd, if_pos hso] at h
        dsimp only at h
        cases h
        refine ⟨by simp [not_ne_iff.mp hne], ?_⟩
        show decide ((0 : Int) ≤ if (0 : Int) ≤ -1 then (-1 : Int) else -1) = false
        norm_num
      · rw [if_neg hfd, if_pos hso] at h
        dsimp only at h
        cases h
        exact ⟨by simp [not_ne_iff.mp hne], by simp [decide_eq_false hfd]⟩
    · by_cases hfd : (0 : Int) ≤ obj.fd
      · rw [if_pos hfd, if_neg hso] at h
        cases h
      · rw [if_neg hfd, if_neg hso] at h
        cases h

/-- C10 witness: the teardown of a concrete drained socket invokes
`destroy_obj` with both safety reports in the safe state. -/
theorem C10_witness :
    (close_teardown sock5).2 = some (true, false) ∧ (true = true ∧ false = false) :=
  ⟨by decide, C10_destroy_reached_safely sock5 true false (by decide)⟩

theorem getObj_setObj_ne (st : Store) (i j : Nat) (o : Obj) (h : i ≠ j) :
    getObj (setObj st i o) j = getObj st j := by
  unfold getObj setObj
  rw [List.getD_eq_getD_get?, List.getD_eq_getD_get?, List.get?_eq_getElem?,
    List.get?_eq_getElem?, List.getElem?_set, if_neg h]

theorem getObj_setObj_self (st : Store) (i : Nat) (o : Obj) (h : i < st.length) :
    getObj (setObj st i o) i = o := by
  unfold getObj setObj
  rw [List.getD_eq_getD_get?, List.get?_eq_getElem?, List.getElem?_set]
  simp [h]

theorem getObj_setObj_self_out (st : Store) (i : Nat) (o : Obj)
    (h : ¬ i < st.length) :
    getObj (setObj st i o) i = default := by
  unfold getObj setObj
  rw [List.getD_eq_getD_get?, List.get?_eq_getElem?, List.getElem?_set]
  simp [h]

theorem setObj_length (st : Store) (i : Nat) (o : Obj) :
    (setObj st i o).length = st.length := List.length_set st i o

theorem wod_frame (B : Nat) (o : Obj) (src : Option (List Nat)) (len : Int) :
    (write_obj_data B o src len).1.writer = o.writer ∧
    (write_obj_data B o src len).1.readers = o.readers ∧
    (write_obj_data B o src len).1.fd = o.fd ∧
    (write_obj_data B o src len).1.name = o.name ∧
    (write_obj_data B o src len).1.otype = o.otype ∧
    (write_obj_data B o src len).1.gotEOF = o.gotEOF ∧
    (write_obj_data B o src len).1.alive = o.alive := by
  match src with
  | none => exact ⟨rfl, rfl, rfl, rfl, rfl, rfl, rfl⟩
  | some s =>
    unfold write_obj_data write_obj_data_core
    dsimp only
    by_cases h0 : len ≤ 0
    · rw [if_pos h0]
      exact ⟨rfl, rfl, rfl, rfl, rfl, rfl, rfl⟩
    · rw [if_neg h0]
      exact ⟨rfl, rfl, rfl, rfl, rfl, rfl, rfl⟩

/-- The object written back into an opened logfile slot keeps every graph
field; `open_obj` never touches other slots. -/
theorem open_obj_untouched_ne (B : Nat) (st : Store) (i : Nat) (oF : Int)
    (now : List Nat) (j : Nat) (h : i ≠ j) :
    getObj (open_obj B st i oF now).1 j = getObj st j := by
  unfold open_obj
  dsimp only
  split_ifs <;> first | rfl | exact getObj_setObj_ne st i j _ h

theorem open_obj_graph_frame (B : Nat) (st : Store) (i : Nat) (oF : Int)
    (now : List Nat) :
    (getObj (open_obj B st i oF now).1 i).writer = (getObj st i).writer ∧
    (getObj (open_obj B st i oF now).1 i).readers = (getObj st i).readers := by
  unfold open_obj
  dsimp only
  split_ifs <;> try exact ⟨rfl, rfl⟩
  by_cases hr : i < st.length
  · rw [getObj_setObj_self _ _ _ hr]
    exact ⟨(wod_frame B _ _ _).1, (wod_frame B _ _ _).2.1⟩
  · rw [getObj_setObj_self_out _ _ _ hr]
    unfold getObj
    rw [List.getD_eq_getD_get?, List.get?_eq_getElem?, List.getElem?_eq_none (by omega)]
    exact ⟨rfl, rfl⟩

theorem open_obj_length (B : Nat) (st : Store) (i : Nat) (oF : Int)
    (now : List Nat) :
    (open_obj B st i oF now).1.length = st.length := by
  unfold open_obj
  dsimp only
  split_ifs <;> first | rfl | exact setObj_length st i _

theorem drainLoop_length (closef : Store → Nat → Option Store)
    (hcf : ∀ (st : Store) (k : Nat) (st' : Store),
      closef st k = some st' → st'.length = st.length) :
    ∀ (f : Nat) (st : Store) (i : Nat) (stale : Ptr) (st' : Store),
      drainLoop closef f st i stale = some st' → st'.length = st.length := by
  intro f
  induction f with
  | zero => intro st i stale st' h; cases h
  | succ f ih =>
      intro st i stale st' h
      unfold drainLoop at h
      dsimp only at h
      rcases hr : (getObj st i).readers with _ | ⟨r, rest⟩ <;> rw [hr] at h <;>
        try dsimp only at h
      · by_cases hs : stale = Ptr.null
        · rw [if_pos hs] at h; cases h
        · rw [if_neg hs] at h; cases h; rfl
      · by_cases hs : stale = Ptr.mk r
        · rw [if_pos hs] at h
          by_cases hw : (getObj (setObj st i { getObj st i with readers := rest }) r).writer
              = some i
          · rw [if_pos hw] at h
            try dsimp only at h
            rcases hq : (if (getObj (setObj (setObj st i { getObj st i with readers := rest })
                  r { getObj (setObj st i { getObj st i with readers := rest }) r
                      with writer := none }) r).readers = []
                then closef (setObj (setObj st i { getObj st i with readers := rest })
                  r { getObj (setObj st i { getObj st i with readers := rest }) r
                      with writer := none }) r
                else some (setObj (setObj st i { getObj st i with readers := rest })
                  r { getObj (setObj st i { getObj st i with readers := rest }) r
                      with writer := none })) with _ | st3 <;> rw [hq] at h
            · cases h
            · have h3 : st3.length
                  = (setObj (setObj st i { getObj st i with readers := rest })
                      r { getObj (setObj st i { getObj st i with readers := rest }) r
                          with writer := none }).length := by
                split_ifs at hq
                · exact hcf _ _ _ hq
                · cases hq; rfl
              rw [ih _ _ _ _ h, h3, setObj_length, setObj_length]
          · rw [if_neg hw] at h
            rw [ih _ _ _ _ h, setObj_length]
        · rw [if_neg hs] at h
          cases h
          rw [setObj_length]

theorem getObj_setObj_writer_none (st : Store) (r : Nat) (base : Obj) :
    (getObj (setObj st r { base with writer := none }) r).writer = none := by
  by_cases hr : r < st.length
  · rw [getObj_setObj_self _ _ _ hr]
  · rw [getObj_setObj_self_out _ _ _ hr]
    rfl

theorem drainLoop_untouched (closef : Store → Nat → Option Store) (j : Nat)
    (hcf : ∀ (st : Store) (k : Nat) (st' : Store), k ≠ j →
      (getObj st k).writer = none → closef st k = some st' →
      getObj st' j = getObj st j) :
    ∀ (f : Nat) (st : Store) (i : Nat) (stale : Ptr) (st' : Store),
      i ≠ j → (∀ r, stale = Ptr.mk r → r = i) →
      drainLoop closef f st i stale = some st' → getObj st' j = getObj st j := by
  intro f
  induction f with
  | zero => intro st i stale st' _ _ h; cases h
  | succ f ih =>
      intro st i stale st' hij hstale h
      unfold drainLoop at h
      dsimp only at h
      rcases hr : (getObj st i).readers with _ | ⟨r, rest⟩ <;> rw [hr] at h <;>
        try dsimp only at h
      · by_cases hs : stale = Ptr.null
        · rw [if_pos hs] at h; cases h
        · rw [if_neg hs] at h; cases h; rfl
      · by_cases hs : stale = Ptr.mk r
        · have hri : r = i := hstale r hs
          rw [if_pos hs] at h
          by_cases hw : (getObj (setObj st i { getObj st i with readers := rest }) r).writer
              = some i
          · rw [if_pos hw] at h
            try dsimp only at h
            rcases hq : (if (getObj (setObj (setObj st i { getObj st i with readers := rest })
                  r { getObj (setObj st i { getObj st i with readers := rest }) r
                      with writer := none }) r).readers = []
                then closef (setObj (setObj st i { getObj st i with readers := rest })
                  r { getObj (setObj st i { getObj st i with readers := rest }) r
                      with writer := none }) r
                else some (setObj (setObj st i { getObj st i with readers := rest })
                  r { getObj (setObj st i { getObj st i with readers := rest }) r
                      with writer := none })) with _ | st3 <;> rw [hq] at h
            · cases h
            · have h3 : getObj st3 j
                  = getObj (setObj (setObj st i { getObj st i with readers := rest })
                      r { getObj (setObj st i { getObj st i with readers := rest }) r
                          with writer := none }) j := by
                split_ifs at hq
                · exact hcf _ _ _ (hri ▸ hij) (getObj_setObj_writer_none _ _ _) hq
                · cases hq; rfl
              rw [ih _ _ _ _ hij hstale h, h3,
                getObj_setObj_ne _ _ _ _ (hri ▸ hij),
                getObj_setObj_ne _ _ _ _ hij]
          · rw [if_neg hw] at h
            rw [ih _ _ _ _ hij hstale h, getObj_setObj_ne _ _ _ _ hij]
        · rw [if_neg hs] at h
          cases h
          rw [getObj_setObj_ne _ _ _ _ hij]

theorem close_obj_fuel_untouched : ∀ (f : Nat) (st : Store) (i j : Nat) (st' : Store),
    i ≠ j → (getObj st i).writer ≠ some j →
    close_obj_fuel f st i = some st' → getObj st' j = getObj st j := by
  intro f
  induction f with
  | zero => intro st i j st' _ _ h; cases h
  | succ f ih =>
      intro st i j st' hij hwj h
      have hdrain := drainLoop_untouched (close_obj_fuel f) j
        (fun a k b hkj hwn hc => ih a k j b hkj (by rw [hwn]; simp) hc)
      unfold close_obj_fuel at h
      dsimp only at h
      rcases hw : (getObj st i).writer with _ | w <;> rw [hw] at h <;>
        try dsimp only at h
      · rcases hd : drainLoop (close_obj_fuel f) ((getObj st i).readers.length + 1)
            st i Ptr.garbage with _ | st3 <;> rw [hd] at h
        · cases h
        · cases h
          rw [getObj_setObj_ne _ _ _ _ hij,
            hdrain _ _ _ _ _ hij (fun r hr => by cases hr) hd]
      · have hwj2 : w ≠ j := by
          intro he
          exact hwj (by rw [hw, he])
        by_cases hmem : i ∈ (getObj st w).readers
        · rw [if_pos hmem] at h
          try dsimp only at h
          rcases hq : (if (getObj (setObj st w { getObj st w
                  with readers := removeFirst (getObj st w).readers i }) w).writer = none
                ∧ (getObj (setObj st w { getObj st w
                  with readers := removeFirst (getObj st w).readers i }) w).readers = []
              then close_obj_fuel f (setObj st w { getObj st w
                  with readers := removeFirst (getObj st w).readers i }) w
              else some (setObj st w { getObj st w
                  with readers := removeFirst (getObj st w).readers i }))
              with _ | st2 <;> rw [hq] at h
          · cases h
          · try dsimp only at h
            have h2 : getObj st2 j = getObj st j := by
              split_ifs at hq with hcond
              · rw [ih _ _ _ _ hwj2 (by rw [hcond.1]; simp) hq,
                  getObj_setObj_ne _ _ _ _ hwj2]
              · cases hq
                rw [getObj_setObj_ne _ _ _ _ hwj2]
            rcases hd : drainLoop (close_obj_fuel f)
                ((getObj (setObj st2 i { getObj st2 i with writer := none }) i).readers.length + 1)
                (setObj st2 i { getObj st2 i with writer := none }) i (Ptr.mk i)
                with _ | st3 <;> rw [hd] at h
            · cases h
            · cases h
              rw [getObj_setObj_ne _ _ _ _ hij,
                hdrain _ _ _ _ _ hij (fun r hr => by cases hr; rfl) hd,
                getObj_setObj_ne _ _ _ _ hij, h2]
        · rw [if_neg hmem] at h
          try dsimp only at h
          rcases hd : drainLoop (close_obj_fuel f) ((getObj st i).readers.length + 1)
              st i Ptr.null with _ | st3 <;> rw [hd] at h
          · cases h
          · cases h
            rw [getObj_setObj_ne _ _ _ _ hij,
              hdrain _ _ _ _ _ hij (fun r hr => by cases hr) hd]

theorem close_obj_fuel_length : ∀ (f : Nat) (st : Store) (i : Nat) (st' : Store),
    close_obj_fuel f st i = some st' → st'.length = st.length := by
  intro f
  induction f with
  | zero => intro st i st' h; cases h
  | succ f ih =>
      intro st i st' h
      have hdrain := drainLoop_length (close_obj_fuel f) (fun a b c hk => ih a b c hk)
      unfold close_obj_fuel at h
      dsimp only at h
      rcases hw : (getObj st i).writer with _ | w <;> rw [hw] at h <;>
        try dsimp only at h
      · rcases hd : drainLoop (close_obj_fuel f) ((getObj st i).readers.length + 1)
            st i Ptr.garbage with _ | st3 <;> rw [hd] at h
        · cases h
        · cases h
          rw [setObj_length]
          exact hdrain _ _ _ _ _ hd
      · by_cases hmem : i ∈ (getObj st w).readers
        · rw [if_pos hmem] at h
          try dsimp only at h
          rcases hq : (if (getObj (setObj st w { getObj st w
                  with readers := removeFirst (getObj st w).readers i }) w).writer = none
                ∧ (getObj (setObj st w { getObj st w
                  with readers := removeFirst (getObj st w).readers i }) w).readers = []
              then close_obj_fuel f (setObj st w { getObj st w
                  with readers := removeFirst (getObj st w).readers i }) w
              else some (setObj st w { getObj st w
                  with readers := removeFirst (getObj st w).readers i }))
              with _ | st2 <;> rw [hq] at h
          · cases h
          · dsimp only at h
            have h2 : st2.length = st.length := by
              split_ifs at hq
              · rw [ih _ _ _ hq, setObj_length]
              · cases hq; rw [setObj_length]
            rcases hd : drainLoop (close_obj_fuel f)
                ((getObj (setObj st2 i { getObj st2 i with writer := none }) i).readers.length + 1)
                (setObj st2 i { getObj st2 i with writer := none }) i (Ptr.mk i)
                with _ | st3 <;> rw [hd] at h
            · cases h
            · cases h
              rw [setObj_length, hdrain _ _ _ _ _ hd, setObj_length, h2]
        · rw [if_neg hmem] at h
          dsimp only at h
          rcases hd : drainLoop (close_obj_fuel f) ((getObj st i).readers.length + 1)
              st i Ptr.null with _ | st3 <;> rw [hd] at h
          · cases h
          · cases h
            rw [setObj_length]
            exact hdrain _ _ _ _ _ hd

theorem getObj_out_default (st : Store) (j : Nat) (h : ¬ j < st.length) :
    getObj st j = default := by
  unfold getObj
  exact List.getD_eq_default _ _ (by omega)

theorem getObj_setObj_fd_mono (st : Store) (i j : Nat) (o : Obj)
    (h : (getObj st i).fd < 0 → o.fd < 0) :
    (getObj st j).fd < 0 → (getObj (setObj st i o) j).fd < 0 := by
  intro hj
  by_cases hij : i = j
  · subst hij
    by_cases hl : i < st.length
    · rw [getObj_setObj_self _ _ _ hl]
      exact h hj
    · rw [getObj_setObj_self_out _ _ _ hl]
      decide
  · rw [getObj_setObj_ne _ _ _ _ hij]
    exact hj

theorem getObj_setObj_keepfw (st : Store) (i j : Nat) (o : Obj)
    (hfd : o.fd = (getObj st i).fd) (hwr : o.writer = (getObj st i).writer) :
    (getObj (setObj st i o) j).fd = (getObj st j).fd
    ∧ (getObj (setObj st i o) j).writer = (getObj st j).writer := by
  by_cases hij : i = j
  · subst hij
    by_cases hl : i < st.length
    · rw [getObj_setObj_self _ _ _ hl]
      exact ⟨hfd, hwr⟩
    · rw [getObj_setObj_self_out _ _ _ hl, getObj_out_default st i hl]
      exact ⟨rfl, rfl⟩
  · rw [getObj_setObj_ne _ _ _ _ hij]
    exact ⟨rfl, rfl⟩

theorem close_teardown_fd (o : Obj) :
    (close_teardown o).1.fd = o.fd ∨ (close_teardown o).1.fd = -1 := by
  unfold close_teardown destroy_obj
  dsimp only
  split_ifs <;> simp

theorem close_teardown_fd_mono (o : Obj) (h : o.fd < 0) :
    (close_teardown o).1.fd < 0 := by
  rcases close_teardown_fd o with he | he
  · rw [he]
    exact h
  · rw [he]
    decide

theorem drainLoop_fd_mono (closef : Store → Nat → Option Store)
    (hcf : ∀ (a : Store) (k : Nat) (b : Store), closef a k = some b →
      ∀ j, (getObj a j).fd < 0 → (getObj b j).fd < 0) :
    ∀ (f : Nat) (st : Store) (i : Nat) (stale : Ptr) (st' : Store),
      drainLoop closef f st i stale = some st' →
      ∀ j, (getObj st j).fd < 0 → (getObj st' j).fd < 0 := by
  intro f
  induction f with
  | zero => intro st i stale st' h; cases h
  | succ f ih =>
      intro st i stale st' h j hj
      unfold drainLoop at h
      dsimp only at h
      rcases hr : (getObj st i).readers with _ | ⟨r, rest⟩ <;> rw [hr] at h <;>
        try dsimp only at h
      · by_cases hs : stale = Ptr.null
        · rw [if_pos hs] at h; cases h
        · rw [if_neg hs] at h; cases h; exact hj
      · by_cases hs : stale = Ptr.mk r
        · rw [if_pos hs] at h
          by_cases hw : (getObj (setObj st i { getObj st i with readers := rest }) r).writer
              = some i
          · rw [if_pos hw] at h
            try dsimp only at h
            rcases hq : (if (getObj (setObj (setObj st i { getObj st i with readers := rest })
                  r { getObj (setObj st i { getObj st i with readers := rest }) r
                      with writer := none }) r).readers = []
                then closef (setObj (setObj st i { getObj st i with readers := rest })
                  r { getObj (setObj st i { getObj st i with readers := rest }) r
                      with writer := none }) r
                else some (setObj (setObj st i { getObj st i with readers := rest })
                  r { getObj (setObj st i { getObj st i with readers := rest }) r
                      with writer := none })) with _ | st3 <;> rw [hq] at h
            · cases h
            · have h1 := getObj_setObj_fd_mono st i j
                { getObj st i with readers := rest } (fun hx => hx) hj
              have h2 := getObj_setObj_fd_mono
                (setObj st i { getObj st i with readers := rest }) r j
                { getObj (setObj st i { getObj st i with readers := rest }) r
                    with writer := none } (fun hx => hx) h1
              have h3 : (getObj st3 j).fd < 0 := by
                split_ifs at hq
                · exact hcf _ _ _ hq j h2
                · cases hq; exact h2
              exact ih _ _ _ _ h j h3
          · rw [if_neg hw] at h
            exact ih _ _ _ _ h j
              (getObj_setObj_fd_mono st i j
                { getObj st i with readers := rest } (fun hx => hx) hj)
        · rw [if_neg hs] at h
          cases h
          exact getObj_setObj_fd_mono st i j
            { getObj st i with readers := rest } (fun hx => hx) hj

theorem close_obj_fuel_fd_mono : ∀ (f : Nat) (st : Store) (i : Nat) (st' : Store),
    close_obj_fuel f st i = some st' →
    ∀ j, (getObj st j).fd < 0 → (getObj st' j).fd < 0 := by
  intro f
  induction f with
  | zero => intro st i st' h; cases h
  | succ f ih =>
      intro st i st' h j hj
      have hdrain := drainLoop_fd_mono (close_obj_fuel f)
        (fun a k b hc => ih a k b hc)
      unfold close_obj_fuel at h
      dsimp only at h
      rcases hw : (getObj st i).writer with _ | w <;> rw [hw] at h <;>
        try dsimp only at h
      · rcases hd : drainLoop (close_obj_fuel f) ((getObj st i).readers.length + 1)
            st i Ptr.garbage with _ | st3 <;> rw [hd] at h
        · cases h
        · cases h
          exact getObj_setObj_fd_mono st3 i j _
            (fun hx => close_teardown_fd_mono _ hx) (hdrain _ _ _ _ _ hd j hj)
      · by_cases hmem : i ∈ (getObj st w).readers
        · rw [if_pos hmem] at h
          try dsimp only at h
          have h1 := getObj_setObj_fd_mono st w j
            { getObj st w with readers := removeFirst (getObj st w).readers i }
            (fun hx => hx) hj
          rcases hq : (if (getObj (setObj st w { getObj st w
                  with readers := removeFirst (getObj st w).readers i }) w).writer = none
                ∧ (getObj (setObj st w { getObj st w
                  with readers := removeFirst (getObj st w).readers i }) w).readers = []
              then close_obj_fuel f (setObj st w { getObj st w
                  with readers := removeFirst (getObj st w).readers i }) w
              else some (setObj st w { getObj st w
                  with readers := removeFirst (getObj st w).readers i }))
              with _ | st2 <;> rw [hq] at h
          · cases h
          · try dsimp only at h
            have h2 : (getObj st2 j).fd < 0 := by
              split_ifs at hq
              · exact ih _ _ _ hq j h1
              · cases hq; exact h1
            have h3 := getObj_setObj_fd_mono st2 i j
              { getObj st2 i with writer := none } (fun hx => hx) h2
            rcases hd : drainLoop (close_obj_fuel f)
                ((getObj (setObj st2 i { getObj st2 i with writer := none }) i).readers.length + 1)
                (setObj st2 i { getObj st2 i with writer := none }) i (Ptr.mk i)
                with _ | st3 <;> rw [hd] at h
            · cases h
            · cases h
              exact getObj_setObj_fd_mono st3 i j _
                (fun hx => close_teardown_fd_mono _ hx) (hdrain _ _ _ _ _ hd j h3)
        · rw [if_neg hmem] at h
          try dsimp only at h
          rcases hd : drainLoop (close_obj_fuel f) ((getObj st i).readers.length + 1)
              st i Ptr.null with _ | st3 <;> rw [hd] at h
          · cases h
          · cases h
            exact getObj_setObj_fd_mono st3 i j _
              (fun hx => close_teardown_fd_mono _ hx) (hdrain _ _ _ _ _ hd j hj)

theorem drainLoop_fw (closef : Store → Nat → Option Store) (j : Nat)
    (hcf : ∀ (a : Store) (k : Nat) (b : Store), k ≠ j →
      (getObj a j).writer ≠ none → closef a k = some b →
      (getObj b j).fd = (getObj a j).fd
      ∧ (getObj b j).writer = (getObj a j).writer) :
    ∀ (f : Nat) (st : Store) (i : Nat) (stale : Ptr) (st' : Store),
      i ≠ j → (getObj st j).writer ≠ none → (∀ r, stale = Ptr.mk r → r = i) →
      drainLoop closef f st i stale = some st' →
      (getObj st' j).fd = (getObj st j).fd
      ∧ (getObj st' j).writer = (getObj st j).writer := by
  intro f
  induction f with
  | zero => intro st i stale st' _ _ _ h; cases h
  | succ f ih =>
      intro st i stale st' hij hwne hstale h
      unfold drainLoop at h
      dsimp only at h
      rcases hr : (getObj st i).readers with _ | ⟨r, rest⟩ <;> rw [hr] at h <;>
        try dsimp only at h
      · by_cases hs : stale = Ptr.null
        · rw [if_pos hs] at h; cases h
        · rw [if_neg hs] at h; cases h; exact ⟨rfl, rfl⟩
      · by_cases hs : stale = Ptr.mk r
        · have hri : r = i := hstale r hs
          rw [if_pos hs] at h
          have e1 : getObj (setObj st i { getObj st i with readers := rest }) j
              = getObj st j := getObj_setObj_ne _ _ _ _ hij
          by_cases hw : (getObj (setObj st i { getObj st i with readers := rest }) r).writer
              = some i
          · rw [if_pos hw] at h
            try dsimp only at h
            have e2 : getObj (setObj (setObj st i { getObj st i with readers := rest })
                  r { getObj (setObj st i { getObj st i with readers := rest }) r
                      with writer := none }) j
                = getObj (setObj st i { getObj st i with readers := rest }) j :=
              getObj_setObj_ne _ _ _ _ (hri ▸ hij)
            rcases hq : (if (getObj (setObj (setObj st i { getObj st i with readers := rest })
                  r { getObj (setObj st i { getObj st i with readers := rest }) r
                      with writer := none }) r).readers = []
                then closef (setObj (setObj st i { getObj st i with readers := rest })
                  r { getObj (setObj st i { getObj st i with readers := rest }) r
                      with writer := none }) r
                else some (setObj (setObj st i { getObj st i with readers := rest })
                  r { getObj (setObj st i { getObj st i with readers := rest }) r
                      with writer := none })) with _ | st3 <;> rw [hq] at h
            · cases h
            · have h3 : (getObj st3 j).fd
                    = (getObj (setObj (setObj st i { getObj st i with readers := rest })
                        r { getObj (setObj st i { getObj st i with readers := rest }) r
                            with writer := none }) j).fd
                  ∧ (getObj st3 j).writer
                    = (getObj (setObj (setObj st i { getObj st i with readers := rest })
                        r { getObj (setObj st i { getObj st i with readers := rest }) r
                            with writer := none }) j).writer := by
                split_ifs at hq
                · exact hcf _ _ _ (hri ▸ hij) (by rw [e2, e1]; exact hwne) hq
                · cases hq; exact ⟨rfl, rfl⟩
              obtain ⟨p1, p2⟩ := ih _ _ _ _ hij
                (by rw [h3.2, e2, e1]; exact hwne) hstale h
              exact ⟨by rw [p1, h3.1, e2, e1], by rw [p2, h3.2, e2, e1]⟩
          · rw [if_neg hw] at h
            obtain ⟨p1, p2⟩ := ih _ _ _ _ hij (by rw [e1]; exact hwne) hstale h
            exact ⟨by rw [p1, e1], by rw [p2, e1]⟩
        · rw [if_neg hs] at h
          cases h
          exact ⟨by rw [getObj_setObj_ne _ _ _ _ hij],
                 by rw [getObj_setObj_ne _ _ _ _ hij]⟩

theorem close_obj_fuel_fw : ∀ (f : Nat) (st : Store) (i j : Nat) (st' : Store),
    i ≠ j → (getObj st j).writer ≠ none →
    close_obj_fuel f st i = some st' →
    (getObj st' j).fd = (getObj st j).fd
    ∧ (getObj st' j).writer = (getObj st j).writer := by
  intro f
  induction f with
  | zero => intro st i j st' _ _ h; cases h
  | succ f ih =>
      intro st i j st' hij hwne h
      have hdrain := drainLoop_fw (close_obj_fuel f) j
        (fun a k b hk hwn hc => ih a k j b hk hwn hc)
      unfold close_obj_fuel at h
      dsimp only at h
      rcases hw : (getObj st i).writer with _ | w <;> rw [hw] at h <;>
        try dsimp only at h
      · rcases hd : drainLoop (close_obj_fuel f) ((getObj st i).readers.length + 1)
            st i Ptr.garbage with _ | st3 <;> rw [hd] at h
        · cases h
        · cases h
          obtain ⟨p1, p2⟩ := hdrain _ _ _ _ _ hij hwne (fun r hr => by cases hr) hd
          exact ⟨by rw [getObj_setObj_ne _ _ _ _ hij, p1],
                 by rw [getObj_setObj_ne _ _ _ _ hij, p2]⟩
      · by_cases hmem : i ∈ (getObj st w).readers
        · rw [if_pos hmem] at h
          try dsimp only at h
          have hp1 := getObj_setObj_keepfw st w j
            { getObj st w with readers := removeFirst (getObj st w).readers i } rfl rfl
          rcases hq : (if (getObj (setObj st w { getObj st w
                  with readers := removeFirst (getObj st w).readers i }) w).writer = none
                ∧ (getObj (setObj st w { getObj st w
                  with readers := removeFirst (getObj st w).readers i }) w).readers = []
              then close_obj_fuel f (setObj st w { getObj st w
                  with readers := removeFirst (getObj st w).readers i }) w
              else some (setObj st w { getObj st w
                  with readers := removeFirst (getObj st w).readers i }))
              with _ | st2 <;> rw [hq] at h
          · cases h
          · try dsimp only at h
            have h2 : (getObj st2 j).fd = (getObj st j).fd
                ∧ (getObj st2 j).writer = (getObj st j).writer := by
              split_ifs at hq with hcond
              · by_cases hwj : w = j
                · exfalso
                  apply hwne
                  rw [← hp1.2, ← hwj]
                  exact hcond.1
                · obtain ⟨r1, r2⟩ := ih _ _ _ _ hwj (by rw [hp1.2]; exact hwne) hq
                  exact ⟨by rw [r1, hp1.1], by rw [r2, hp1.2]⟩
              · cases hq
                exact hp1
            have e3 : getObj (setObj st2 i { getObj st2 i with writer := none }) j
                = getObj st2 j := getObj_setObj_ne _ _ _ _ hij
            rcases hd : drainLoop (close_obj_fuel f)
                ((getObj (setObj st2 i { getObj st2 i with writer := none }) i).readers.length + 1)
                (setObj st2 i { getObj st2 i with writer := none }) i (Ptr.mk i)
                with _ | st3 <;> rw [hd] at h
            · cases h
            · cases h
              obtain ⟨p1, p2⟩ := hdrain _ _ _ _ _ hij
                (by rw [e3, h2.2]; exact hwne) (fun r hr => by cases hr; rfl) hd
              exact ⟨by rw [getObj_setObj_ne _ _ _ _ hij, p1, e3, h2.1],
                     by rw [getObj_setObj_ne _ _ _ _ hij, p2, e3, h2.2]⟩
        · rw [if_neg hmem] at h
          try dsimp only at h
          rcases hd : drainLoop (close_obj_fuel f) ((getObj st i).readers.length + 1)
              st i Ptr.null with _ | st3 <;> rw [hd] at h
          · cases h
          · cases h
            obtain ⟨p1, p2⟩ := hdrain _ _ _ _ _ hij hwne (fun r hr => by cases hr) hd
            exact ⟨by rw [getObj_setObj_ne _ _ _ _ hij, p1],
                   by rw [getObj_setObj_ne _ _ _ _ hij, p2]⟩

/-! ## Claim C3 -/

/-- C3: the reader-drain loop of `close_obj` (server-obj.c:229) compares
(`==`) where the evident intent is assignment, so on `closeStore` closing
object 0 (console, readers `[2, 3]`) pops reader 2 off the list and then
stops: the readers list still holds `[3]`, the popped reader 2 still has
`writer = some 0` (edge symmetry broken) and stays alive instead of being
recursively closed and destroyed, and reader 3 is untouched.  This
contradicts the code's own comment ("Remove object link between each of
my readers and me") and the claimed drain-all behavior. -/
theorem C3_close_obj_drain_bug :
    (close_obj closeStore 0).map (fun st => (getObj st 0).readers) = some [3]
  ∧ (close_obj closeStore 0).map (fun st => (getObj st 2).writer) = some (some 0)
  ∧ (close_obj closeStore 0).map (fun st => (getObj st 2).alive) = some true
  ∧ (close_obj closeStore 0).map (fun st => (getObj st 3).writer) = some (some 0)
  ∧ (close_obj closeStore 0).map (fun st => (getObj st 3).alive) = some true
  ∧ (close_obj closeStore 0).map (fun st => (getObj st 1).alive) = some false := by
  decide

/-- C5: stealing a console.  When `dst` already has a writer `W` — any
steal, including the code's own "R/W use" case where the incumbent `W`
also reads `dst` (`W.writer = dst`) — and the embedded `close_obj`
returns, the link records the steal notice written to `W`'s buffer and
the `close(W)` call, in that order, before anything else; afterwards
`dst.writer = src` and `dst ∈ src.readers`; `src`'s type-specific open
routine has been invoked whenever its descriptor was closed at entry —
and exactly then when `W` was not reading from `src` (closing `W` can
otherwise close `src`'s descriptor first); `dst`'s open routine was
invoked exactly when its descriptor was closed at entry (the close never
touches `dst`'s descriptor, because `dst.writer = W` blocks the
recursive close of `dst`). -/
theorem C5_steal_link_sequence (B : Nat) (st : Store) (src dst W : Nat)
    (now : List Nat) (sf df : Int) (stF : Store) (tr : List LinkEvent)
    (hW : (getObj st dst).writer = some W)
    (hres : create_obj_link B st src dst now sf df = some (stF, tr))
    (hsd : src ≠ dst) (hWs : W ≠ src) (hWd : W ≠ dst)
    (hsl : src < st.length) (hdl : dst < st.length) :
    (∃ rest, tr = LinkEvent.wroteNotice W
        (stealNotice (getObj st dst).name (getObj st src).name now)
      :: LinkEvent.closedWriter W :: rest)
    ∧ (getObj stF dst).writer = some src
    ∧ dst ∈ (getObj stF src).readers
    ∧ ((getObj st src).fd < 0 → LinkEvent.openedObj src ∈ tr)
    ∧ ((getObj st W).writer ≠ some src →
        (LinkEvent.openedObj src ∈ tr ↔ (getObj st src).fd < 0))
    ∧ (LinkEvent.openedObj dst ∈ tr ↔ (getObj st dst).fd < 0) := by
  unfold create_obj_link at hres
  dsimp only at hres
  rw [hW] at hres
  dsimp only at hres
  set notice := stealNotice (getObj st dst).name (getObj st src).name now with hnot
  set st1 := setObj st W
    (write_obj_data B (getObj st W) (some notice) (notice.length : Int)).1 with hst1
  rcases hc : close_obj st1 W with _ | stc <;> rw [hc] at hres
  · exact Option.noConfusion hres
  dsimp only at hres
  have hc3 : close_obj_fuel 3 st1 W = some stc := hc
  have hW1w : (getObj st1 W).writer = (getObj st W).writer := by
    rw [hst1]
    by_cases hr : W < st.length
    · rw [getObj_setObj_self _ _ _ hr]
      exact (wod_frame B (getObj st W) _ _).1
    · rw [getObj_setObj_self_out _ _ _ hr]
      unfold getObj
      rw [List.getD_eq_default _ _ (by omega)]
  have hsrc1 : getObj st1 src = getObj st src := by
    rw [hst1, getObj_setObj_ne _ _ _ _ hWs]
  have hdst1 : getObj st1 dst = getObj st dst := by
    rw [hst1, getObj_setObj_ne _ _ _ _ hWd]
  have hdfw := close_obj_fuel_fw 3 st1 W dst stc hWd
    (by rw [hdst1, hW]; exact fun hcon => Option.noConfusion hcon) hc3
  have hdfd : (getObj stc dst).fd = (getObj st dst).fd := by
    rw [hdfw.1, hdst1]
  have hsmono : (getObj st src).fd < 0 → (getObj stc src).fd < 0 := fun hx =>
    close_obj_fuel_fd_mono 3 st1 W stc hc3 src (by rw [hsrc1]; exact hx)
  have hlenc : stc.length = st.length := by
    rw [close_obj_fuel_length 3 st1 W stc hc3, hst1, setObj_length]
  set st2 := setObj stc dst { getObj stc dst with writer := some src } with hst2
  set st3 := setObj st2 src
    { getObj st2 src with readers := (getObj st2 src).readers ++ [dst] } with hst3
  have hs2src : getObj st2 src = getObj stc src := by
    rw [hst2, getObj_setObj_ne _ _ _ _ (Ne.symm hsd)]
  have hd3 : getObj st3 dst = { getObj stc dst with writer := some src } := by
    rw [hst3, getObj_setObj_ne _ _ _ _ hsd, hst2,
      getObj_setObj_self _ _ _ (by rw [hlenc]; exact hdl)]
  have hs3 : getObj st3 src
      = { getObj st2 src with readers := (getObj st2 src).readers ++ [dst] } := by
    rw [hst3, getObj_setObj_self _ _ _
        (by rw [hst2, setObj_length, hlenc]; exact hsl)]
  have hs3fd : (getObj st3 src).fd = (getObj stc src).fd := by
    rw [hs3, hs2src]
  have hd3fd : (getObj st3 dst).fd = (getObj st dst).fd := by
    rw [hd3, hdfd]
  have hsrcmono : (getObj st src).fd < 0 → (getObj st3 src).fd < 0 := fun hx => by
    rw [hs3fd]
    exact hsmono hx
  have hspres : (getObj st W).writer ≠ some src →
      (getObj st3 src).fd = (getObj st src).fd := by
    intro hne
    rw [hs3fd,
      close_obj_fuel_untouched 3 st1 W src stc hWs (by rw [hW1w]; exact hne) hc3,
      hsrc1]
  by_cases hfs : (getObj st3 src).fd < 0
  · rw [if_pos hfs] at hres
    dsimp only at hres
    have hodst : getObj (open_obj B st3 src sf now).1 dst = getObj st3 dst :=
      open_obj_untouched_ne B st3 src sf now dst hsd
    rw [hodst] at hres
    by_cases hfd : (getObj st3 dst).fd < 0
    · rw [if_pos hfd] at hres
      dsimp only at hres
      rw [Option.some.injEq, Prod.mk.injEq] at hres
      obtain ⟨h1, h2⟩ := hres
      subst h1
      subst h2
      refine ⟨⟨[LinkEvent.openedObj src, LinkEvent.openedObj dst], rfl⟩,
        ?_, ?_, ?_, ?_, ?_⟩
      · rw [(open_obj_graph_frame B (open_obj B st3 src sf now).1 dst df now).1,
          hodst, hd3]
      · rw [open_obj_untouched_ne B (open_obj B st3 src sf now).1 dst df now src
            (Ne.symm hsd),
          (open_obj_graph_frame B st3 src sf now).2, hs3]
        simp
      · intro _
        simp
      · intro hne
        exact ⟨fun _ => by rw [← hspres hne]; exact hfs, fun _ => by simp⟩
      · exact ⟨fun _ => by rw [← hd3fd]; exact hfd, fun _ => by simp⟩
    · rw [if_neg hfd] at hres
      dsimp only at hres
      rw [Option.some.injEq, Prod.mk.injEq] at hres
      obtain ⟨h1, h2⟩ := hres
      subst h1
      subst h2
      refine ⟨⟨[LinkEvent.openedObj src], rfl⟩, ?_, ?_, ?_, ?_, ?_⟩
      · rw [hodst, hd3]
      · rw [(open_obj_graph_frame B st3 src sf now).2, hs3]
        simp
      · intro _
        simp
      · intro hne
        exact ⟨fun _ => by rw [← hspres hne]; exact hfs, fun _ => by simp⟩
      · constructor
        · intro hm
          simp at hm
          exact absurd hm (Ne.symm hsd)
        · intro hcon
          exact absurd hcon (by rw [← hd3fd]; exact hfd)
  · rw [if_neg hfs] at hres
    dsimp only at hres
    by_cases hfd : (getObj st3 dst).fd < 0
    · rw [if_pos hfd] at hres
      dsimp only at hres
      rw [Option.some.injEq, Prod.mk.injEq] at hres
      obtain ⟨h1, h2⟩ := hres
      subst h1
      subst h2
      refine ⟨⟨[LinkEvent.openedObj dst], rfl⟩, ?_, ?_, ?_, ?_, ?_⟩
      · rw [(open_obj_graph_frame B st3 dst df now).1, hd3]
      · rw [open_obj_untouched_ne B st3 dst df now src (Ne.symm hsd), hs3]
        simp
      · intro hx
        exact absurd (hsrcmono hx) hfs
      · intro hne
        constructor
        · intro hm
          simp at hm
          exact absurd hm hsd
        · intro hcon
          exact absurd (hsrcmono hcon) hfs
      · exact ⟨fun _ => by rw [← hd3fd]; exact hfd, fun _ => by simp⟩
    · rw [if_neg hfd] at hres
      dsimp only at hres
      rw [Option.some.injEq, Prod.mk.injEq] at hres
      obtain ⟨h1, h2⟩ := hres
      subst h1
      subst h2
      refine ⟨⟨[], rfl⟩, ?_, ?_, ?_, ?_, ?_⟩
      · rw [hd3]
      · rw [hs3]
        simp
      · intro hx
        exact absurd (hsrcmono hx) hfs
      · intro hne
        constructor
        · intro hm
          simp at hm
        · intro hcon
          exact absurd (hsrcmono hcon) hfs
      · constructor
        · intro hm
          simp at hm
        · intro hcon
          exact absurd hcon (by rw [← hd3fd]; exact hfd)

/-- C5 witness: on `linkStore` — the R/W-incumbent configuration of spec
scenario 5, socket 1 both writing and reading console 0 — socket 2 steals
console 0; the hypotheses hold by computation and the theorem yields the
event order, the relinked writer/reader edges, and the open-routine
facts (no opens, both descriptors open). -/
theorem C5_witness :
    ((getObj linkStore 0).writer = some 1
      ∧ (getObj linkStore 1).writer = some 0
      ∧ create_obj_link 8 linkStore 2 0 [110, 111, 119] 9 9
          = some (linkRes.1, linkRes.2))
    ∧ ((∃ rest, linkRes.2 = LinkEvent.wroteNotice 1
          (stealNotice (getObj linkStore 0).name (getObj linkStore 2).name
            [110, 111, 119])
        :: LinkEvent.closedWriter 1 :: rest)
      ∧ (getObj linkRes.1 0).writer = some 2
      ∧ 0 ∈ (getObj linkRes.1 2).readers
      ∧ ((getObj linkStore 2).fd < 0 → LinkEvent.openedObj 2 ∈ linkRes.2)
      ∧ ((getObj linkStore 1).writer ≠ some 2 →
          (LinkEvent.openedObj 2 ∈ linkRes.2 ↔ (getObj linkStore 2).fd < 0))
      ∧ (LinkEvent.openedObj 0 ∈ linkRes.2 ↔ (getObj linkStore 0).fd < 0)) :=
  ⟨⟨by decide, by decide, by decide⟩,
   C5_steal_link_sequence 8 linkStore 2 0 1 [110, 111, 119] 9 9
     linkRes.1 linkRes.2 (by decide) (by decide) (by decide) (by decide)
     (by decide) (by decide) (by decide)⟩

/-! ## Lemmas: port precedence in the configuration parser -/

theorem lastPort_cons_set (n : Int) (l : List PEvent) :
    lastPort (PEvent.setPort n :: l) = some ((lastPort l).getD n) := by
  show (match lastPort l with
        | some m => some m
        | none => evPort (PEvent.setPort n)) = _
  rcases h : lastPort l with _ | m <;> rfl

theorem lastPort_no_set (l : List PEvent) (h : ∀ n : Int, PEvent.setPort n ∉ l) :
    lastPort l = none := by
  induction l with
  | nil => rfl
  | cons e t ih =>
      have ht : lastPort t = none :=
        ih (fun n hn => h n (List.mem_cons_of_mem _ hn))
      show (match lastPort t with
            | some m => some m
            | none => evPort e) = none
      rw [ht]
      rcases e with n | ⟨nm, dv, lg, bp⟩
      · exact absurd (List.mem_cons_self _ _) (h n)
      · rfl

theorem lastPort_append_opt (a b : List PEvent) :
    lastPort (a ++ b) = match lastPort b with
      | some n => some n
      | none => lastPort a := by
  induction a with
  | nil => rcases h : lastPort b with _ | m <;> simp [lastPort, h]
  | cons e t ih =>
      rw [List.cons_append]
      show (match lastPort (t ++ b) with
            | some n => some n
            | none => evPort e) = _
      rw [ih]
      rcases h : lastPort b with _ | m <;> rfl

theorem lastPort_append (a b : List PEvent) (d : Int) :
    (lastPort (a ++ b)).getD d = (lastPort b).getD ((lastPort a).getD d) := by
  rw [lastPort_append_opt]
  rcases h : lastPort b with _ | m <;> rfl

theorem lastPort_mem (l : List PEvent) (n : Int) (h : lastPort l = some n) :
    PEvent.setPort n ∈ l := by
  induction l with
  | nil => exact Option.noConfusion h
  | cons e t ih =>
      rw [show lastPort (e :: t)
            = (match lastPort t with
               | some m => some m
               | none => evPort e) from rfl] at h
      rcases ht : lastPort t with _ | m
      · rw [ht] at h
        dsimp only at h
        rcases e with m | ⟨nm, dv, lg, bp⟩
        · dsimp only [evPort] at h
          injection h with h2
          subst h2
          exact List.mem_cons_self _ _
        · exact Option.noConfusion h
      · rw [ht] at h
        dsimp only at h
        injection h with h2
        subst h2
        exact List.mem_cons_of_mem _ (ih ht)

theorem sdLoop_port : ∀ (fuel : Nat) (st : SDState),
    ∃ new, (sdLoop fuel st).evs = st.evs ++ new
      ∧ (sdLoop fuel st).conf.port = (lastPort new).getD st.conf.port
      ∧ ∀ n : Int, PEvent.setPort n ∈ new → 0 < n := by
  intro fuel
  induction fuel with
  | zero => intro st; exact ⟨[], by simp [sdLoop, lastPort]⟩
  | succ fuel ih =>
      intro st
      rcases ht : lex_next st.lx with ⟨t, lx1⟩
      unfold sdLoop
      rw [ht]
      dsimp only
      rcases hk : t.kind with k | _ | _ | c | _ | _ | _ <;> try dsimp only
      · rcases k <;> try dsimp only
        all_goals try (refine ⟨[], ?_, ?_, ?_⟩ <;> (simp [lastPort]; done))
        -- KEEPALIVE
        · split_ifs <;> first
            | exact ih _
            | (refine ⟨[], ?_, ?_, ?_⟩ <;> (simp [lastPort]; done))
        -- LOOPBACK
        · split_ifs <;> first
            | exact ih _
            | (refine ⟨[], ?_, ?_, ?_⟩ <;> (simp [lastPort]; done))
        -- PORT
        · split_ifs with hA hB hn
          · refine ⟨[], ?_, ?_, ?_⟩ <;> (simp [lastPort]; done)
          · refine ⟨[], ?_, ?_, ?_⟩ <;> (simp [lastPort]; done)
          · refine ⟨[], ?_, ?_, ?_⟩ <;> (simp [lastPort]; done)
          · obtain ⟨new2, h1, hp, hpos⟩ := ih { st with lx := (lex_next (lex_next lx1).2).2, conf := { st.conf with port := atoiM (lex_text (lex_next (lex_next lx1).2).2) }, evs := st.evs ++ [PEvent.setPort (atoiM (lex_text (lex_next (lex_next lx1).2).2))] }
            refine ⟨PEvent.setPort (atoiM (lex_text (lex_next (lex_next lx1).2).2)) :: new2, ?_, ?_, ?_⟩
            · rw [h1]
              simp
            · rw [hp, lastPort_cons_set, Option.getD_some]
            · intro m hm
              rcases List.mem_cons.mp hm with he | htl
              · injection he with he2
                omega
              · exact hpos m htl
      · refine ⟨[], ?_, ?_, ?_⟩ <;> (simp [lastPort]; done)
      · refine ⟨[], ?_, ?_, ?_⟩ <;> (simp [lastPort]; done)
      · refine ⟨[], ?_, ?_, ?_⟩ <;> (simp [lastPort]; done)
      · refine ⟨[], ?_, ?_, ?_⟩ <;> (simp [lastPort]; done)
      · refine ⟨[], ?_, ?_, ?_⟩ <;> (simp [lastPort]; done)
      · refine ⟨[], ?_, ?_, ?_⟩ <;> (simp [lastPort]; done)

theorem psd_port (lx : LexState) (conf : ServerConf) :
    (parse_server_directive lx conf).2.1.port
      = (lastPort (parse_server_directive lx conf).2.2.2).getD conf.port
    ∧ ∀ n : Int, PEvent.setPort n ∈ (parse_server_directive lx conf).2.2.2 →
        0 < n := by
  obtain ⟨new, h1, h2, h3⟩ := sdLoop_port (lx.rest.length + 1)
    { lx := lx, conf := conf, err := none, evs := [] }
  dsimp only at h1 h2
  rw [List.nil_append] at h1
  unfold parse_server_directive
  dsimp only
  split <;> dsimp only
  · exact ⟨by rw [h2, h1], by rw [h1]; exact h3⟩
  · exact ⟨by rw [h2, h1], by rw [h1]; exact h3⟩

theorem pcd_port (lx : LexState) (conf : ServerConf) :
    (parse_console_directive lx conf).2.1 = conf
    ∧ ∀ n : Int, PEvent.setPort n ∉ (parse_console_directive lx conf).2.2.2 := by
  unfold parse_console_directive
  dsimp only
  split <;> dsimp only
  · exact ⟨rfl, by intro n; simp⟩
  · exact ⟨rfl, by intro n; simp⟩

theorem confLoop_port : ∀ (fuel : Nat) (lx : LexState) (conf : ServerConf),
    (confLoop fuel lx conf).2.1.port
      = (lastPort (confLoop fuel lx conf).2.2.2).getD conf.port
    ∧ ∀ n : Int, PEvent.setPort n ∈ (confLoop fuel lx conf).2.2.2 → 0 < n := by
  intro fuel
  induction fuel with
  | zero => intro lx conf; exact ⟨rfl, by intro n hn; simp [confLoop] at hn⟩
  | succ fuel ih =>
      intro lx conf
      rcases ht : lex_next lx with ⟨t, lx1⟩
      unfold confLoop
      rw [ht]
      dsimp only
      rcases hk : t.kind with k | _ | _ | c | _ | _ | _ <;> try dsimp only
      · rcases k <;> try dsimp only
        all_goals try exact ih _ conf
        -- CONSOLE
        · obtain ⟨hp1, hp2⟩ := pcd_port lx1 conf
          obtain ⟨hc1, hc2⟩ := ih (parse_console_directive lx1 conf).1
            (parse_console_directive lx1 conf).2.1
          refine ⟨?_, ?_⟩
          · rw [lastPort_append, lastPort_no_set _ hp2, hc1, hp1]
            rfl
          · intro n hn
            rcases List.mem_append.mp hn with h | h
            · exact absurd h (hp2 n)
            · exact hc2 n h
        -- SERVER
        · obtain ⟨hs1, hs2⟩ := psd_port lx1 conf
          obtain ⟨hc1, hc2⟩ := ih (parse_server_directive lx1 conf).1
            (parse_server_directive lx1 conf).2.1
          refine ⟨?_, ?_⟩
          · rw [lastPort_append, hc1, hs1]
          · intro n hn
            rcases List.mem_append.mp hn with h | h
            · exact hs2 n h
            · exact hc2 n h
      · exact ih _ conf
      · exact ih _ conf
      · exact ih _ conf
      · exact ih lx1 conf
      · exact ⟨rfl, by simp⟩
      · exact ih lx1 conf

/-- C7: port precedence.  A positive pre-parse port (set from the command
line) survives the whole parse; otherwise the last positive `SERVER PORT`
value from the file wins; otherwise the compiled-in default is
substituted. -/
theorem C7_port_precedence (conf : ServerConf) (toks : List Tok)
    (defaultPort : Int) :
    (0 < conf.port →
      (process_server_conf_file conf toks defaultPort).2.1.port = conf.port)
    ∧ (conf.port ≤ 0 →
        ∀ n : Int,
        lastPort (process_server_conf_file conf toks defaultPort).2.2.2
            = some n →
        (process_server_conf_file conf toks defaultPort).2.1.port = n)
    ∧ (conf.port ≤ 0 →
        lastPort (process_server_conf_file conf toks defaultPort).2.2.2
            = none →
        (process_server_conf_file conf toks defaultPort).2.1.port
          = defaultPort) := by
  have h := confLoop_port (toks.length + 1) (lex_create toks) conf
  unfold process_server_conf_file
  dsimp only
  refine ⟨?_, ?_, ?_⟩
  · intro hpos
    rw [if_pos hpos]
  · intro hle n hn
    have hm := h.2 n (lastPort_mem _ n hn)
    have hc1p : (confLoop (toks.length + 1) (lex_create toks) conf).2.1.port
        = n := by
      rw [h.1, hn]
      rfl
    split_ifs with h1 h2
    · exact absurd h1 (by omega)
    · exfalso
      rw [hc1p] at h2
      omega
    · exact hc1p
  · intro hle hn
    have hc1p : (confLoop (toks.length + 1) (lex_create toks) conf).2.1.port
        = conf.port := by
      rw [h.1, hn]
      rfl
    split_ifs with h1 h2
    · exact absurd h1 (by omega)
    · rfl
    · exact absurd (by rw [hc1p]; exact hle) h2

/-- C7 witness: parsing `SERVER PORT=7777` with no command-line port
yields port 7777 (the file's last `setPort` value). -/
theorem C7_witness :
    (confZero.port ≤ 0
      ∧ lastPort (process_server_conf_file confZero toks7 7000).2.2.2
          = some 7777)
    ∧ (process_server_conf_file confZero toks7 7000).2.1.port = 7777 :=
  ⟨⟨by decide, by decide⟩,
   (C7_port_precedence confZero toks7 7000).2.1 (by decide) 7777 (by decide)⟩

/-! ## Lemmas: error recovery and whole-file progress in the parser -/

theorem drop_trans {a b c : List Tok} (h1 : ∃ k, b = a.drop k)
    (h2 : ∃ k, c = b.drop k) : ∃ k, c = a.drop k := by
  obtain ⟨k1, e1⟩ := h1
  obtain ⟨k2, e2⟩ := h2
  exact ⟨k1 + k2, by rw [e2, e1, List.drop_drop, Nat.add_comm]⟩

theorem rest_le {a b : List Tok} (h : ∃ k, b = a.drop k) :
    b.length ≤ a.length := by
  obtain ⟨k, e⟩ := h
  rw [e, List.length_drop]
  omega

theorem rest_subset {a b : List Tok} (h : ∃ k, b = a.drop k) : b ⊆ a := by
  obtain ⟨k, e⟩ := h
  rw [e]
  exact List.drop_subset _ _

theorem lex_next_rest (lx : LexState) :
    ∃ k, (lex_next lx).2.rest = lx.rest.drop k := by
  rcases hr : lx.rest with _ | ⟨t, ts⟩
  · exact ⟨0, by simp [lex_next, hr]⟩
  · exact ⟨1, by simp [lex_next, hr]⟩

theorem resync_rest : ∀ (fuel : Nat) (lx : LexState),
    ∃ k, (resync fuel lx).rest = lx.rest.drop k := by
  intro fuel
  induction fuel with
  | zero => intro lx; exact ⟨0, rfl⟩
  | succ fuel ih =>
      intro lx
      unfold resync
      split_ifs with h
      · exact drop_trans (lex_next_rest lx) (ih _)
      · exact ⟨0, rfl⟩

theorem skipToEol_rest : ∀ (fuel : Nat) (tk : TokKind) (lx : LexState),
    ∃ k, (skipToEol fuel tk lx).rest = lx.rest.drop k := by
  intro fuel
  induction fuel with
  | zero => intro tk lx; exact ⟨0, rfl⟩
  | succ fuel ih =>
      intro tk lx
      unfold skipToEol
      split_ifs with h
      · exact drop_trans (lex_next_rest lx) (ih _ _)
      · exact ⟨0, rfl⟩

theorem sdLoop_rest : ∀ (fuel : Nat) (st : SDState),
    ∃ k, (sdLoop fuel st).lx.rest = st.lx.rest.drop k := by
  intro fuel
  induction fuel with
  | zero => intro st; exact ⟨0, rfl⟩
  | succ fuel ih =>
      intro st
      rcases ht : lex_next st.lx with ⟨t, lx1⟩
      have e1 := lex_next_rest st.lx
      rw [ht] at e1
      dsimp only at e1
      unfold sdLoop
      rw [ht]
      dsimp only
      rcases hk : t.kind with k | _ | _ | c | _ | _ | _ <;> try dsimp only
      · have e2 := lex_next_rest lx1
        have e3 := lex_next_rest (lex_next lx1).2
        rcases k <;> try dsimp only
        all_goals try exact e1
        all_goals try exact drop_trans e1 e2
        all_goals split_ifs <;> first
          | exact drop_trans (drop_trans (drop_trans e1 e2) e3) (ih _)
          | exact drop_trans e1 e2
          | exact drop_trans (drop_trans e1 e2) e3
      · exact e1
      · exact e1
      · exact e1
      · exact e1
      · exact e1
      · exact e1

theorem cdLoop_rest : ∀ (fuel : Nat) (st : CDState),
    ∃ k, (cdLoop fuel st).lx.rest = st.lx.rest.drop k := by
  intro fuel
  induction fuel with
  | zero => intro st; exact ⟨0, rfl⟩
  | succ fuel ih =>
      intro st
      rcases ht : lex_next st.lx with ⟨t, lx1⟩
      have e1 := lex_next_rest st.lx
      rw [ht] at e1
      dsimp only at e1
      unfold cdLoop
      rw [ht]
      dsimp only
      rcases hk : t.kind with k | _ | _ | c | _ | _ | _ <;> try dsimp only
      · have e2 := lex_next_rest lx1
        have e3 := lex_next_rest (lex_next lx1).2
        rcases k <;> try dsimp only
        all_goals try exact e1
        all_goals try exact drop_trans e1 e2
        all_goals split_ifs <;> first
          | exact drop_trans (drop_trans (drop_trans e1 e2) e3) (ih _)
          | exact drop_trans e1 e2
          | exact drop_trans (drop_trans e1 e2) e3
      · exact e1
      · exact e1
      · exact e1
      · exact e1
      · exact e1
      · exact e1

theorem psd_rest (lx : LexState) (conf : ServerConf) :
    ∃ k, (parse_server_directive lx conf).1.rest = lx.rest.drop k := by
  have hs := sdLoop_rest (lx.rest.length + 1)
    { lx := lx, conf := conf, err := none, evs := [] }
  dsimp only at hs
  unfold parse_server_directive
  dsimp only
  split <;> dsimp only
  · exact drop_trans hs (resync_rest _ _)
  · exact hs

theorem pcd_rest (lx : LexState) (conf : ServerConf) :
    ∃ k, (parse_console_directive lx conf).1.rest = lx.rest.drop k := by
  have hs := cdLoop_rest (lx.rest.length + 1)
    { lx := lx, name := [], dev := [], log := [],
      bps := DEFAULT_CONSOLE_BAUD, err := none }
  dsimp only at hs
  unfold parse_console_directive
  dsimp only
  split_ifs with hc
  · dsimp only
    exact drop_trans hs (resync_rest _ _)
  · split <;> dsimp only
    · exact drop_trans hs (resync_rest _ _)
    · exact hs

theorem resync_prev_eof : ∀ (f : Nat) (st : LexState),
    st.prev = TokKind.eof → resync f st = st := by
  intro f st h
  cases f with
  | zero => rfl
  | succ f =>
      unfold resync
      rw [if_neg (show ¬(lex_prev st ≠ TokKind.eol ∧ lex_prev st ≠ TokKind.eof)
        from fun hc => hc.2 h)]

theorem resync_prev : ∀ (fuel : Nat) (st : LexState),
    st.rest.length < fuel →
    (resync fuel st).prev = TokKind.eol
    ∨ (resync fuel st).prev = TokKind.eof := by
  intro fuel
  induction fuel with
  | zero => intro st h; exact absurd h (by omega)
  | succ fuel ih =>
      intro st h
      unfold resync
      by_cases hc : lex_prev st ≠ TokKind.eol ∧ lex_prev st ≠ TokKind.eof
      · rw [if_pos hc]
        rcases hr : st.rest with _ | ⟨t, ts⟩
        · have hp : (lex_next st).2.prev = TokKind.eof := by
            unfold lex_next
            rw [hr]
          rw [resync_prev_eof fuel _ hp]
          exact Or.inr hp
        · apply ih
          have hrest : (lex_next st).2.rest = ts := by
            unfold lex_next
            rw [hr]
          rw [hrest]
          rw [hr] at h
          simp only [List.length_cons] at h
          omega
      · rw [if_neg hc]
        rcases not_and_or.mp hc with h2 | h2
        · exact Or.inl (not_not.mp h2)
        · exact Or.inr (not_not.mp h2)

theorem psd_errs (lx : LexState) (conf : ServerConf) :
    (parse_server_directive lx conf).2.2.1.length ≤ 1
    ∧ ∀ l ∈ (parse_server_directive lx conf).2.2.1, l.toStderr = true := by
  unfold parse_server_directive
  dsimp only
  split <;> dsimp only
  · constructor
    · simp
    · intro l hl
      simp only [List.mem_singleton] at hl
      subst hl
      rfl
  · exact ⟨by simp, by intro l hl; simp at hl⟩

theorem psd_resync (lx : LexState) (conf : ServerConf) :
    (parse_server_directive lx conf).2.2.1 ≠ [] →
    (parse_server_directive lx conf).1.prev = TokKind.eol
    ∨ (parse_server_directive lx conf).1.prev = TokKind.eof := by
  unfold parse_server_directive
  dsimp only
  split <;> dsimp only
  · intro _
    exact resync_prev _ _ (Nat.lt_succ_self _)
  · intro h
    exact absurd rfl h

theorem pcd_errs (lx : LexState) (conf : ServerConf) :
    (parse_console_directive lx conf).2.2.1.length ≤ 1
    ∧ ∀ l ∈ (parse_console_directive lx conf).2.2.1, l.toStderr = true := by
  unfold parse_console_directive
  dsimp only
  split_ifs with hc
  · dsimp only
    constructor
    · simp
    · intro l hl
      simp only [List.mem_singleton] at hl
      subst hl
      rfl
  · split <;> dsimp only
    · constructor
      · simp
      · intro l hl
        simp only [List.mem_singleton] at hl
        subst hl
        rfl
    · exact ⟨by simp, by intro l hl; simp at hl⟩

theorem pcd_resync (lx : LexState) (conf : ServerConf) :
    (parse_console_directive lx conf).2.2.1 ≠ [] →
    (parse_console_directive lx conf).1.prev = TokKind.eol
    ∨ (parse_console_directive lx conf).1.prev = TokKind.eof := by
  unfold parse_console_directive
  dsimp only
  split_ifs with hc
  · dsimp only
    intro _
    exact resync_prev _ _ (Nat.lt_succ_self _)
  · split <;> dsimp only
    · intro _
      exact resync_prev _ _ (Nat.lt_succ_self _)
    · intro h
      exact absurd rfl h

theorem confLoop_progress : ∀ (fuel : Nat) (lx : LexState) (conf : ServerConf),
    lx.rest.length < fuel →
    (∀ u ∈ lx.rest, u.kind ≠ TokKind.eof) →
    (confLoop fuel lx conf).1.rest = [] := by
  intro fuel
  induction fuel with
  | zero => intro lx conf h _; exact absurd h (by omega)
  | succ f ih =>
      intro lx conf hlen hno
      rcases hr : lx.rest with _ | ⟨t0, ts⟩
      · have ht2 : lex_next lx = ({ kind := TokKind.eof, text := [], line := lx.cur.line }, { lx with prev := TokKind.eof, cur := { kind := TokKind.eof, text := [], line := lx.cur.line } }) := by
          unfold lex_next
          rw [hr]
        unfold confLoop
        rw [ht2]
        dsimp only
        exact hr
      · have ht2 : lex_next lx = (t0, { rest := ts, prev := t0.kind, cur := t0 }) := by
          unfold lex_next
          rw [hr]
        have hlen1 : ts.length < f := by
          rw [hr] at hlen
          simp only [List.length_cons] at hlen
          omega
        have hno1 : ∀ u ∈ ts, u.kind ≠ TokKind.eof :=
          fun u hu => hno u (by rw [hr]; exact List.mem_cons_of_mem _ hu)
        have hno0 : t0.kind ≠ TokKind.eof :=
          hno t0 (by rw [hr]; exact List.mem_cons_self _ _)
        unfold confLoop
        rw [ht2]
        dsimp only
        rcases hk : t0.kind with k | _ | _ | c | _ | _ | _ <;> try dsimp only
        · rcases k <;> try dsimp only
          all_goals try
            (apply ih
             · apply lt_of_le_of_lt (rest_le (skipToEol_rest _ _ _))
               exact hlen1
             · intro u hu
               have hu2 := rest_subset (skipToEol_rest _ _ _) hu
               exact hno1 u hu2)
          -- CONSOLE
          · apply ih
            · apply lt_of_le_of_lt (rest_le (pcd_rest _ _))
              exact hlen1
            · intro u hu
              have hu2 := rest_subset (pcd_rest _ _) hu
              exact hno1 u hu2
          -- SERVER
          · apply ih
            · apply lt_of_le_of_lt (rest_le (psd_rest _ _))
              exact hlen1
            · intro u hu
              have hu2 := rest_subset (psd_rest _ _) hu
              exact hno1 u hu2
        all_goals try
          (apply ih
           · apply lt_of_le_of_lt (rest_le (skipToEol_rest _ _ _))
             exact hlen1
           · intro u hu
             have hu2 := rest_subset (skipToEol_rest _ _ _) hu
             exact hno1 u hu2)
        all_goals try
          (apply ih
           · exact hlen1
           · exact hno1)
        · exact absurd hk hno0

theorem process_progress (conf : ServerConf) (toks : List Tok) (d : Int)
    (hno : ∀ u ∈ toks, u.kind ≠ TokKind.eof) :
    (process_server_conf_file conf toks d).1.rest = [] := by
  unfold process_server_conf_file
  dsimp only
  exact confLoop_progress (toks.length + 1) (lex_create toks) conf
    (Nat.lt_succ_self _) hno

/-- C8 counterexample: a file whose only token is an unmatched quote.
`process_server_conf_file` emits exactly one diagnostic for it, but from
the top-level loop's `printf` (server-conf.c:237-239), i.e. on standard
output, not standard error — and without resynchronizing. -/
theorem C8_counterexample :
    (process_server_conf_file confZero [lerrTok] 7000).2.2.1
      = [{ line := 1, msg := ErrKind.unmatchedQuote, toStderr := false }] := by
  decide

/-- C8 (amended): errors inside a `SERVER` or `CONSOLE` directive produce
at most one diagnostic line, every such line goes to standard error
(`fprintf(stderr, ...)`), and on error the directive parser resynchronizes
so that the previous token is an end-of-line (or end-of-file); the
top-level loop always consumes the whole token stream (no abort), provided
the lexer never produces an interior end-of-file token.  Top-level
diagnostics, by contrast, go to standard output (see the counterexample). -/
theorem C8_directive_error_recovery (conf : ServerConf) (toks : List Tok)
    (defaultPort : Int) (lx : LexState) :
    ((parse_server_directive lx conf).2.2.1.length ≤ 1
      ∧ ∀ l ∈ (parse_server_directive lx conf).2.2.1, l.toStderr = true)
    ∧ ((parse_server_directive lx conf).2.2.1 ≠ [] →
        (parse_server_directive lx conf).1.prev = TokKind.eol
        ∨ (parse_server_directive lx conf).1.prev = TokKind.eof)
    ∧ ((parse_console_directive lx conf).2.2.1.length ≤ 1
      ∧ ∀ l ∈ (parse_console_directive lx conf).2.2.1, l.toStderr = true)
    ∧ ((parse_console_directive lx conf).2.2.1 ≠ [] →
        (parse_console_directive lx conf).1.prev = TokKind.eol
        ∨ (parse_console_directive lx conf).1.prev = TokKind.eof)
    ∧ ((∀ u ∈ toks, u.kind ≠ TokKind.eof) →
        (process_server_conf_file conf toks defaultPort).1.rest = []) :=
  ⟨psd_errs lx conf, psd_resync lx conf, pcd_errs lx conf, pcd_resync lx conf,
   fun hno => process_progress conf toks defaultPort hno⟩

/-- C8 witness: a `SERVER PORT 5` directive missing its `=` yields one
stderr diagnostic, resynchronizes to the end-of-line, and the whole
`SERVER PORT=7777` file is still consumed to the end. -/
theorem C8_witness :
    ((parse_server_directive lx8 confZero).2.2.1 ≠ []
      ∧ ∀ u ∈ toks7, u.kind ≠ TokKind.eof)
    ∧ ((parse_server_directive lx8 confZero).2.2.1.length ≤ 1
      ∧ ∀ l ∈ (parse_server_directive lx8 confZero).2.2.1, l.toStderr = true)
    ∧ ((parse_server_directive lx8 confZero).1.prev = TokKind.eol
        ∨ (parse_server_directive lx8 confZero).1.prev = TokKind.eof)
    ∧ (process_server_conf_file confZero toks7 7000).1.rest = [] :=
  ⟨⟨by decide, by decide⟩,
   (C8_directive_error_recovery confZero toks7 7000 lx8).1,
   (C8_directive_error_recovery confZero toks7 7000 lx8).2.1 (by decide),
   (C8_directive_error_recovery confZero toks7 7000 lx8).2.2.2.2 (by decide)⟩

end Conman
